import Mathlib

/-!
# DoH resolver (poohvpn/doh): query race and record decoders

A shallow embedding of `resolver.go`, `error.go` and `response.go`.

* Go strings are byte sequences (`GoString`).
* The goroutines that `Resolver.Query` starts and the `select` statement of its
  loop are modelled by an explicit schedule: the list of events the loop
  observes, in the order it observes them.  An exhausted schedule means that the
  `select` statement blocks for ever (`none`).
* Go functions returning `(value, error)` return both components here as well,
  with `none` for a nil error and `[]` for a nil slice.
* Library functions whose algorithm is not fixed by their documentation
  (`sort.Slice`, the IPv6 part of `net.ParseIP`, the table `dns.TypeToString`)
  are parameters; `sort.Slice` comes with its contract `SliceContract`.
-/

namespace doh

/-! ## Strings -/

/-- Go `string`: an immutable sequence of bytes. -/
abbrev GoString := List UInt8

/-- The bytes (UTF-8) of a string literal. -/
def str (s : String) : GoString := s.toList.flatMap String.utf8EncodeChar

/-- The byte of the double quote character. -/
abbrev dquote : UInt8 := 0x22

/-- Go slice expression `s[lo:hi]`. -/
def slice (s : GoString) (lo hi : Nat) : GoString := (s.take hi).drop lo

/-- Go `strings.Join(elems, sep)`. -/
def Join : List GoString → GoString → GoString
  | [], _ => []
  | [a], _ => a
  | a :: b :: rest, sep => a ++ sep ++ Join (b :: rest) sep

/-! ## Data model (`response.go`, `error.go`) -/

/-- Go `dns.Type` (a `uint16`). -/
abbrev dnsType := Nat

/-- Record type `dns.TypeA`. -/
abbrev TypeA : dnsType := 1
/-- Record type `dns.TypeNS`. -/
abbrev TypeNS : dnsType := 2
/-- Record type `dns.TypeCNAME`. -/
abbrev TypeCNAME : dnsType := 5
/-- Record type `dns.TypePTR`. -/
abbrev TypePTR : dnsType := 12
/-- Record type `dns.TypeMX`. -/
abbrev TypeMX : dnsType := 15
/-- Record type `dns.TypeTXT`. -/
abbrev TypeTXT : dnsType := 16
/-- Record type `dns.TypeAAAA`. -/
abbrev TypeAAAA : dnsType := 28
/-- Record type `dns.TypeSRV`. -/
abbrev TypeSRV : dnsType := 33

/-- One element of `response.Answer` (an anonymous struct in `response.go`).
The field `Type` is spelled `Type_` because `Type` is reserved. -/
structure answer where
  Name : GoString
  Type_ : dnsType
  TTL : Int
  Data : GoString
deriving DecidableEq

/-- The struct `question` of `response.go`. -/
structure question where
  Name : GoString
  Type_ : dnsType
deriving DecidableEq

/-- The struct `response` of `response.go`.  The field `Additional`
(`[]interface{}`) is left out; `resolver.go` reads `Status` and `Answer`
only. -/
structure response where
  Status : Int
  TC : Bool := false
  RD : Bool := false
  RA : Bool := false
  AD : Bool := false
  CD : Bool := false
  Question : List question := []
  Answer : List answer
  EDNSClientSubnet : GoString := []
  Comment : GoString := []
deriving DecidableEq

/-- Go `error` values that occur in the package: opaque errors known by their
message (`errors.New`, transport and decoding errors, the context error), the
sentinel `ErrNoAnswer`, and `*dohError` (`error.go`). -/
inductive error where
  | errorString (text : GoString)
  | ErrNoAnswer
  | dohError (InnerError : error) (Doamin : GoString) (Type_ : dnsType)
deriving DecidableEq

/-- Go `strconv.Itoa` on a non-negative number. -/
def Itoa (n : Nat) : GoString := str (Nat.repr n)

/-- Method `dns.Type.String` of `github.com/miekg/dns`: the mnemonic of the
table `TypeToString` when there is one, `TYPE<n>` otherwise.  The table is not
part of this repository and is a parameter. -/
def dnsType.String (TypeToString : Nat → Option GoString) (t : dnsType) : GoString :=
  match TypeToString t with
  | some name => name
  | none => str "TYPE" ++ Itoa t

/-- Method `Error()`: the text of an error.  For `*dohError` this is
`fmt.Sprintf("DoH: query domain %s on type %s: %s", ...)` of `error.go`. -/
def error.Error (TypeToString : Nat → Option GoString) : error → GoString
  | .errorString text => text
  | .ErrNoAnswer => str "no answer"
  | .dohError inner domain t =>
      str "DoH: query domain " ++ domain ++ str " on type " ++ dnsType.String TypeToString t
        ++ str ": " ++ error.Error TypeToString inner

/-- Method `(*dohError).Unwrap` of `error.go`; other errors do not unwrap. -/
def error.Unwrap : error → Option error
  | .dohError _ _ _ => some .ErrNoAnswer
  | _ => none

/-- The struct `Resolver`.  The HTTP client is an external capability: what it
delivers is part of the schedule handed to `Resolver.Query`. -/
structure Resolver where
  Providers : List GoString

/-! ## The query race (`Resolver.Query`) -/

/-- The local type `result` of `Resolver.Query`: what one `singleQuery`
goroutine sends on `resultC`.  `singleQuery` returns either `(nil, err)`, kept
as the text `err.Error()` (the only use `Query` makes of it), or
`(&dohResp, nil)`. -/
inductive result where
  | failed (msg : GoString)
  | ok (resp : response)
deriving DecidableEq

/-- One event observed by the `select` statement of the loop of
`Resolver.Query`: `case <-ctx.Done()` (with the value of `ctx.Err()`) or
`case res := <-resultC`. -/
inductive event where
  | done (ctxErr : error)
  | recv (res : result)
deriving DecidableEq

/-- The outcome of one call of `Resolver.Query`: the return values `datas` and
`err`, together with the provider URLs for which a `singleQuery` goroutine was
started and the number of `select` statements that were executed. -/
structure QueryRun where
  launched : List GoString
  selects : Nat
  datas : List GoString
  err : Option error
deriving DecidableEq

/-- Quote stripping, `resolver.go` lines 102-106:
`if len(data) >= 2 && data[0] == '"' && data[len(data)-1] == '"'`
then `data = data[1 : len(data)-1]`. -/
def unquote (data : GoString) : GoString :=
  if data.length ≥ 2 ∧ data[0]? = some dquote ∧ data[data.length - 1]? = some dquote then
    slice data 1 (data.length - 1)
  else
    data

/-- The inner loop of `Resolver.Query` over `res.Answer`, lines 97-108: entries
of another type or with TTL 0 are skipped, the others contribute their
quote-stripped data, in order. -/
def collectDatas (t : dnsType) : List answer → List GoString
  | [] => []
  | ans :: rest =>
      if ans.Type_ ≠ t ∨ ans.TTL = 0 then collectDatas t rest
      else unquote ans.Data :: collectDatas t rest

/-- The loop `for i := 0; i < pvdLen; i++ { select ... }` of `Resolver.Query`,
lines 81-123.  The first argument counts the iterations that remain, `sched`
is what the `select` statements will observe, `errsString` and `selects` are
the state. -/
def queryLoop (launched : List GoString) (domain : GoString) (t : dnsType) :
    Nat → List event → List GoString → Nat → Option QueryRun
  | 0, _, errsString, selects =>
      some ⟨launched, selects, [],
        some (.dohError (.errorString (Join errsString (str ", "))) domain t)⟩
  | _ + 1, [], _, _ => none
  | _ + 1, .done ctxErr :: _, _, selects =>
      some ⟨launched, selects + 1, [], some (.dohError ctxErr domain t)⟩
  | n + 1, .recv (.failed msg) :: sched, errsString, selects =>
      queryLoop launched domain t n sched (errsString ++ [msg]) (selects + 1)
  | n + 1, .recv (.ok res) :: sched, errsString, selects =>
      if res.Status ≠ 0 then
        queryLoop launched domain t n sched errsString (selects + 1)
      else
        let datas := collectDatas t res.Answer
        if datas.length = 0 then
          some ⟨launched, selects + 1, [], some (.dohError .ErrNoAnswer domain t)⟩
        else
          some ⟨launched, selects + 1, datas, none⟩

/-- Method `Resolver.Query`, `resolver.go` lines 60-124.  With no provider it
returns at once; otherwise one goroutine per provider is started and the loop
runs `len(r.Providers)` times over the schedule. -/
def Resolver.Query (r : Resolver) (sched : List event) (domain : GoString) (t : dnsType) :
    Option QueryRun :=
  let pvdLen := r.Providers.length
  if pvdLen = 0 then
    some ⟨[], 0, [], some (.errorString (str "no provider"))⟩
  else
    queryLoop r.Providers domain t pvdLen sched [] 0

/-! ## Vocabulary of the statements -/

/-- An answer entry that `Query` surfaces for record type `t`: same type and
nonzero TTL. -/
def usable (t : dnsType) (a : answer) : Bool := decide (a.Type_ = t) && decide (a.TTL ≠ 0)

/-- A provider result over which the loop of `Query` continues: a transport or
decoding failure, or a response with a non-zero status. -/
def result.skipped : result → Bool
  | .failed _ => true
  | .ok resp => decide (resp.Status ≠ 0)

/-- A provider result without a usable answer for `t`: a skipped result, or a
status-0 response none of whose entries is usable. -/
def result.unusable (t : dnsType) : result → Bool
  | .failed _ => true
  | .ok resp => decide (resp.Status ≠ 0) || !(resp.Answer.any (usable t))

/-- The failure messages among provider results, in arrival order. -/
def failures : List result → List GoString
  | [] => []
  | .failed msg :: rest => msg :: failures rest
  | .ok _ :: rest => failures rest

/-- The schedule in which the results arrive in the given order and the
context is never done. -/
def arrivals (results : List result) : List event := results.map event.recv

/-! ## Library functions used by the record decoders -/

/-- The table `asciiSpace` of Go `strings`: tab, line feed, vertical tab, form
feed, carriage return, space. -/
def asciiSpace (b : UInt8) : Bool :=
  b == 0x09 || b == 0x0A || b == 0x0B || b == 0x0C || b == 0x0D || b == 0x20

/-- The number of bytes of the white-space rune (`unicode.IsSpace`) encoded at
the head of `s`, 0 when the rune there is not white space: the six ASCII
spaces, U+0085, U+00A0, U+1680, U+2000..U+200A, U+2028, U+2029, U+202F, U+205F
and U+3000 in UTF-8. -/
def spaceWidth : GoString → Nat
  | [] => 0
  | b :: rest =>
      if asciiSpace b then 1
      else
        match rest with
        | c :: rest2 =>
            if b == 0xC2 && (c == 0x85 || c == 0xA0) then 2
            else
              match rest2 with
              | e :: _ =>
                  if b == 0xE1 && c == 0x9A && e == 0x80 then 3
                  else if b == 0xE2 && c == 0x80 &&
                      ((0x80 ≤ e && e ≤ 0x8A) || e == 0xA8 || e == 0xA9 || e == 0xAF) then 3
                  else if b == 0xE2 && c == 0x81 && e == 0x9F then 3
                  else if b == 0xE3 && c == 0x80 && e == 0x80 then 3
                  else 0
              | [] => 0
        | [] => 0

/-- The scan of Go `strings.Fields`: `skip` counts the remaining bytes of a
white-space rune being passed, `cur` is the field read so far. -/
def fieldsLoop : GoString → Nat → GoString → List GoString
  | [], _, cur => if cur = [] then [] else [cur]
  | _ :: rest, skip + 1, cur => fieldsLoop rest skip cur
  | b :: rest, 0, cur =>
      match spaceWidth (b :: rest) with
      | 0 => fieldsLoop rest 0 (cur ++ [b])
      | w + 1 => (if cur = [] then [] else [cur]) ++ fieldsLoop rest w []

/-- Go `strings.Fields`: the maximal runs of bytes between white-space runes.
A white-space rune begins with an ASCII byte or a UTF-8 lead byte, so it is
found by looking at each byte position in turn. -/
def Fields (s : GoString) : List GoString := fieldsLoop s 0 []

/-- An ASCII decimal digit. -/
def isDigit (b : UInt8) : Bool := 0x30 ≤ b && b ≤ 0x39

/-- The value of a run of decimal digits. -/
def digitsValue (ds : GoString) : Nat := ds.foldl (fun acc d => acc * 10 + (d.toNat - 0x30)) 0

/-- Go `strconv.Atoi` with a 64-bit `int`; `none` stands for a non-nil error
(syntax or range).  An optional sign is followed by one or more decimal digits,
and the value has to lie in `[-2^63, 2^63)`. -/
def Atoi (s : GoString) : Option Int :=
  let neg : Bool := s.head? = some 0x2D
  let ds : GoString := if s.head? = some 0x2B ∨ s.head? = some 0x2D then s.drop 1 else s
  if ds = [] ∨ ds.all isDigit = false then none
  else
    let n := digitsValue ds
    if neg then
      if n > 2 ^ 63 then none else some (-(n : Int))
    else
      if n ≥ 2 ^ 63 then none else some (n : Int)

/-- Go conversion `uint16(n)` of an `int`: the low 16 bits. -/
def uint16 (n : Int) : Nat := (n % 65536).toNat

/-- The inner loop of `insertionSortLessFunc` of Go `sort`: the new element `x`
moves left while it is less than its predecessor.  The list is the sorted
prefix in reverse order (nearest predecessor first), and so is the result. -/
def sinkLess {α : Type} (less : α → α → Bool) (x : α) : List α → List α
  | [] => [x]
  | p :: before => if less x p then p :: sinkLess less x before else x :: p :: before

/-- The function `insertionSortLessFunc` of Go `sort`: every element in turn
is sunk into the sorted prefix before it.  It is one algorithm that meets the
contract of `sort.Slice`, and the one `sort.Slice` runs on short slices. -/
def insertionSort {α : Type} (less : α → α → Bool) (x : List α) : List α :=
  (x.foldl (fun sortedRev a => sinkLess less a sortedRev) []).reverse

/-- The type of Go `sort.Slice(x, less)`, from the slice before the call to the
slice after it.  The algorithm is not part of this repository and differs
between slice lengths and Go releases, so the decoders take it as a
parameter. -/
abbrev SliceSorter := (α : Type) → (α → α → Bool) → List α → List α

/-- A strict weak ordering, which `sort.Slice` expects of `less`: it is
asymmetric, and not being less is transitive. -/
def StrictWeak {α : Type} (less : α → α → Bool) : Prop :=
  (∀ a b, less a b = true → less b a = false) ∧
  (∀ a b c, less a b = false → less b c = false → less a c = false)

/-- The contract of Go `sort.Slice`: the slice is rearranged (the elements are
only swapped), and for a strict weak ordering no element is less than an
element before it.  Nothing is promised on the order of elements that `less`
does not distinguish (the sort is not stable). -/
def SliceContract (sortSlice : SliceSorter) : Prop :=
  ∀ (α : Type) (less : α → α → Bool) (x : List α),
    (sortSlice α less x).Perm x ∧
    (StrictWeak less → (sortSlice α less x).Pairwise (fun a b => less b a = false))

/-! ## Record decoders -/

/-- Go `net.IP`, a byte slice; the nil IP is `[]`. -/
abbrev IP := List UInt8

/-- Go `net.NS`. -/
structure NS where
  Host : GoString
deriving DecidableEq

/-- Go `net.SRV`. -/
structure SRV where
  Target : GoString
  Port : Nat
  Priority : Nat
  Weight : Nat
deriving DecidableEq

/-- Go `net.MX`. -/
structure MX where
  Host : GoString
  Pref : Nat
deriving DecidableEq

/-- Function `parseIPs`, `resolver.go` lines 263-272.  `net.ParseIP` is a
parameter: it returns the nil IP for a string that is not an IP literal. -/
def parseIPs (ParseIP : GoString → IP) (datas : List GoString) (err : Option error) :
    List IP × Option error :=
  match err with
  | some e => ([], some e)
  | none => (datas.map ParseIP, none)

/-- Method `Resolver.LookupA`. -/
def Resolver.LookupA (ParseIP : GoString → IP) (r : Resolver) (sched : List event)
    (name : GoString) : Option (List IP × Option error) :=
  match r.Query sched name TypeA with
  | none => none
  | some run => some (parseIPs ParseIP run.datas run.err)

/-- Method `Resolver.LookupAAAA`. -/
def Resolver.LookupAAAA (ParseIP : GoString → IP) (r : Resolver) (sched : List event)
    (name : GoString) : Option (List IP × Option error) :=
  match r.Query sched name TypeAAAA with
  | none => none
  | some run => some (parseIPs ParseIP run.datas run.err)

/-- Method `Resolver.LookupIP`, lines 126-151.  The two sub-lookups run one
after the other, each with its own schedule. -/
def Resolver.LookupIP (ParseIP : GoString → IP) (r : Resolver) (schedA schedAAAA : List event)
    (name : GoString) : Option (List IP × Option error) :=
  match r.LookupA ParseIP schedA name with
  | none => none
  | some (ipv4Res, ipv4Err) =>
    let res4 : List IP := match ipv4Err with
      | some _ => []
      | none => ipv4Res
    let errs4 : List error := match ipv4Err with
      | some e => [e]
      | none => []
    match r.LookupAAAA ParseIP schedAAAA name with
    | none => none
    | some (ipv6Res, ipv6Err) =>
      let res : List IP := match ipv6Err with
        | some _ => res4
        | none => res4 ++ ipv6Res
      let errs : List error := match ipv6Err with
        | some e => errs4 ++ [e]
        | none => errs4
      if res.length > 0 then some (res, none)
      else if errs.length > 0 then some ([], errs.head?)
      else some ([], none)

/-- Method `Resolver.LookupCNAME`, lines 153-159.  `datas[0]` on an empty
slice is a run-time panic: no return (`none`). -/
def Resolver.LookupCNAME (r : Resolver) (sched : List event) (name : GoString) :
    Option (GoString × Option error) :=
  match r.Query sched name TypeTXT with
  | none => none
  | some run =>
    match run.err with
    | some err => some ([], some err)
    | none =>
      match run.datas with
      | [] => none
      | first :: _ => some (first, none)

/-- Method `Resolver.LookupNS`, lines 161-171. -/
def Resolver.LookupNS (r : Resolver) (sched : List event) (name : GoString) :
    Option (List NS × Option error) :=
  match r.Query sched name TypeTXT with
  | none => none
  | some run =>
    match run.err with
    | some err => some ([], some err)
    | none => some (run.datas.map (fun data => NS.mk data), none)

/-- Method `Resolver.LookupTXT`. -/
def Resolver.LookupTXT (r : Resolver) (sched : List event) (name : GoString) :
    Option (List GoString × Option error) :=
  match r.Query sched name TypeTXT with
  | none => none
  | some run => some (run.datas, run.err)

/-- Method `Resolver.LookupAddr`. -/
def Resolver.LookupAddr (r : Resolver) (sched : List event) (name : GoString) :
    Option (List GoString × Option error) :=
  match r.Query sched name TypePTR with
  | none => none
  | some run => some (run.datas, run.err)

/-- The body of the loop of `Resolver.LookupSRV`, lines 203-225: the record of
one data string, `none` where the loop continues without appending. -/
def parseSRV (data : GoString) : Option SRV :=
  match Fields data with
  | v0 :: v1 :: v2 :: v3 :: _ =>
    match Atoi v0 with
    | none => none
    | some priority =>
      match Atoi v1 with
      | none => none
      | some weight =>
        match Atoi v2 with
        | none => none
        | some port =>
          some { Target := v3, Port := uint16 port, Priority := uint16 priority,
                 Weight := uint16 weight }
  | _ => none

/-- The `less` function of `Resolver.LookupSRV`, line 229. -/
def srvLess (a b : SRV) : Bool :=
  decide (a.Priority < b.Priority) ||
    (decide (a.Priority = b.Priority) && decide (a.Weight < b.Weight))

/-- Lines 201-230 of `Resolver.LookupSRV`: parse every data string, then
sort with `sort.Slice`. -/
def decodeSRV (sortSlice : SliceSorter) (datas : List GoString) : List SRV :=
  sortSlice SRV srvLess (datas.filterMap parseSRV)

/-- The name `Resolver.LookupSRV` queries, lines 190-195. -/
def srvTarget (service proto name : GoString) : GoString :=
  if service = [] ∧ proto = [] then name
  else str "_" ++ service ++ str "._" ++ proto ++ str "." ++ name

/-- Method `Resolver.LookupSRV`, lines 189-232. -/
def Resolver.LookupSRV (sortSlice : SliceSorter) (r : Resolver) (sched : List event)
    (service proto name : GoString) : Option (GoString × List SRV × Option error) :=
  let target := srvTarget service proto name
  match r.Query sched target TypeSRV with
  | none => none
  | some run =>
    match run.err with
    | some err => some ([], [], some err)
    | none => some (target ++ str ".", decodeSRV sortSlice run.datas, none)

/-- The body of the loop of `Resolver.LookupMX`, lines 242-254. -/
def parseMX (data : GoString) : Option MX :=
  match Fields data with
  | v0 :: v1 :: _ =>
    match Atoi v0 with
    | none => none
    | some pref => some { Host := v1, Pref := uint16 pref }
  | _ => none

/-- The `less` function of `Resolver.LookupMX`, line 258. -/
def mxLess (a b : MX) : Bool := decide (a.Pref < b.Pref)

/-- Lines 240-259 of `Resolver.LookupMX`: parse every data string, then sort
with `sort.Slice`. -/
def decodeMX (sortSlice : SliceSorter) (datas : List GoString) : List MX :=
  sortSlice MX mxLess (datas.filterMap parseMX)

/-- Method `Resolver.LookupMX`, lines 234-261. -/
def Resolver.LookupMX (sortSlice : SliceSorter) (r : Resolver) (sched : List event)
    (name : GoString) : Option (List MX × Option error) :=
  match r.Query sched name TypeTXT with
  | none => none
  | some run =>
    match run.err with
    | some err => some ([], some err)
    | none => some (decodeMX sortSlice run.datas, none)

/-! ## Concrete provider responses used in examples -/

/-- A status-0 response without any answer entry. -/
def respEmpty : response := { Status := 0, Answer := [] }

/-- A status-0 response with one A record `2.2.2.2`, TTL 60. -/
def respA : response :=
  { Status := 0, Answer := [⟨str "dohtest.poohvpn.com.", TypeA, 60, str "2.2.2.2"⟩] }

/-- A response with status 2 (SERVFAIL) that nevertheless lists an A record. -/
def respServfail : response :=
  { Status := 2, Answer := [⟨str "dohtest.poohvpn.com.", TypeA, 60, str "9.9.9.9"⟩] }

/-- A status-0 response mixing a quoted TXT entry, an entry of another type, an
entry with TTL 0 and an unquoted TXT entry. -/
def respTXT : response :=
  { Status := 0,
    Answer := [⟨str "dohtest.poohvpn.com.", TypeTXT, 300, str "\"dohtest\""⟩,
               ⟨str "dohtest.poohvpn.com.", TypeA, 300, str "2.2.2.2"⟩,
               ⟨str "dohtest.poohvpn.com.", TypeTXT, 0, str "stale"⟩,
               ⟨str "dohtest.poohvpn.com.", TypeTXT, 300, str "plain"⟩] }

/-- A resolver with two providers. -/
def twoProviders : Resolver :=
  ⟨[str "https://dns.google/resolve", str "https://cloudflare-dns.com/dns-query"]⟩

/-- A resolver with one provider. -/
def oneProvider : Resolver := ⟨[str "https://dns.google/resolve"]⟩

/-- A status-0 SRV response whose only entry has four fields, none numeric. -/
def respSRVbad : response :=
  { Status := 0, Answer := [⟨str "name.example.", TypeSRV, 300, str "a b c d"⟩] }

/-- A status-0 TXT response whose only entry has a single field. -/
def respMXbad : response :=
  { Status := 0, Answer := [⟨str "name.example.", TypeTXT, 300, str "mail.example"⟩] }

/-- A status-0 TXT response whose only entry has empty data. -/
def respTXTempty : response :=
  { Status := 0, Answer := [⟨str "name.example.", TypeTXT, 300, []⟩] }

/-- A status-0 TXT response with two entries in MX presentation format. -/
def respMX : response :=
  { Status := 0,
    Answer := [⟨str "name.example.", TypeTXT, 300, str "10 mail1.example"⟩,
               ⟨str "name.example.", TypeTXT, 300, str "5 mail2.example"⟩] }

/-- A status-0 SRV response with three well-formed entries and a malformed
one. -/
def respSRV : response :=
  { Status := 0,
    Answer := [⟨str "name.example.", TypeSRV, 300, str "10 5 80 a.example."⟩,
               ⟨str "name.example.", TypeSRV, 300, str "10 1 80 b.example."⟩,
               ⟨str "name.example.", TypeSRV, 300, str "a b c d"⟩,
               ⟨str "name.example.", TypeSRV, 300, str "1 9 443 c.example."⟩] }

/-! ## IP literals -/

/-- Go `net.IPv4(a, b, c, d)`: the 16-byte IPv4-mapped form. -/
def IPv4 (a b c d : UInt8) : IP := [0, 0, 0, 0, 0, 0, 0, 0, 0, 0, 0xFF, 0xFF, a, b, c, d]

/-- The scan of `parseIPv4Fields` of Go `net/netip` over a dotted-decimal
literal: `fields` are the octets read so far, `val` and `digLen` the value and
the number of digits of the current octet.  An octet has at least one digit, no
leading zero and a value of at most 255; there are exactly four octets. -/
def parseIPv4Fields : GoString → List UInt8 → Nat → Nat → Option (List UInt8)
  | [], fields, val, _ =>
      if fields.length < 3 then none else some (fields ++ [UInt8.ofNat val])
  | c :: rest, fields, val, digLen =>
      if isDigit c then
        if digLen = 1 ∧ val = 0 then none
        else if val * 10 + (c.toNat - 0x30) > 255 then none
        else parseIPv4Fields rest fields (val * 10 + (c.toNat - 0x30)) (digLen + 1)
      else if c = 0x2E then
        if digLen = 0 ∨ rest = [] then none
        else if fields.length = 3 then none
        else parseIPv4Fields rest (fields ++ [UInt8.ofNat val]) 0 0
      else none

/-- Go `net.ParseIP`: the first `.`, `:` or `%` of the string decides between a
dotted-decimal IPv4 literal, an IPv6 literal and no literal at all; the result
is the 16-byte form, or the nil IP when the string is not an IP literal.  The
parser of IPv6 literals is a parameter. -/
def ParseIP (parseIPv6 : GoString → IP) (s : GoString) : IP :=
  match s.find? (fun c => c == 0x2E || c == 0x3A || c == 0x25) with
  | none => []
  | some c =>
    if c = 0x2E then
      match parseIPv4Fields s [] 0 0 with
      | some [a, b, c, d] => IPv4 a b c d
      | _ => []
    else if c = 0x3A then parseIPv6 s
    else []

/-! ## The decoding rules in the words of the specification -/

/-- A data string that splits on white space into at least 4 fields the first
three of which parse as integers. -/
def srvWellFormed (data : GoString) : Bool :=
  decide (4 ≤ (Fields data).length) && (Atoi ((Fields data).getD 0 [])).isSome &&
    (Atoi ((Fields data).getD 1 [])).isSome && (Atoi ((Fields data).getD 2 [])).isSome

/-- The SRV record of a well-formed data string: priority, weight and port are
the first three fields as 16-bit numbers, the target is the fourth field. -/
def srvRecordOf (data : GoString) : SRV :=
  { Target := (Fields data).getD 3 [],
    Port := uint16 ((Atoi ((Fields data).getD 2 [])).getD 0),
    Priority := uint16 ((Atoi ((Fields data).getD 0 [])).getD 0),
    Weight := uint16 ((Atoi ((Fields data).getD 1 [])).getD 0) }

/-- A data string that splits on white space into at least 2 fields the first
of which parses as an integer. -/
def mxWellFormed (data : GoString) : Bool :=
  decide (2 ≤ (Fields data).length) && (Atoi ((Fields data).getD 0 [])).isSome

/-- The MX record of a well-formed data string: the preference is the first
field as a 16-bit number, the host is the second field. -/
def mxRecordOf (data : GoString) : MX :=
  { Host := (Fields data).getD 1 [],
    Pref := uint16 ((Atoi ((Fields data).getD 0 [])).getD 0) }

/-! ## More provider responses used in examples -/

/-- A status-0 A response whose only entry is not an IP literal. -/
def respAbad : response :=
  { Status := 0, Answer := [⟨str "dohtest.poohvpn.com.", TypeA, 60, str "dohtest"⟩] }

/-- A status-0 AAAA response with one entry. -/
def respAAAA : response :=
  { Status := 0, Answer := [⟨str "dohtest.poohvpn.com.", TypeAAAA, 60, str "2::2"⟩] }

/-- A status-0 response with one CNAME, one NS and one MX entry, none of type
TXT. -/
def respTyped : response :=
  { Status := 0,
    Answer := [⟨str "name.example.", TypeCNAME, 300, str "target.example."⟩,
               ⟨str "name.example.", TypeNS, 300, str "ns1.example."⟩,
               ⟨str "name.example.", TypeMX, 300, str "10 mail1.example."⟩] }

/-- A status-0 SRV response with priorities and weights outside the 16-bit
range. -/
def respSRVwrap : response :=
  { Status := 0,
    Answer := [⟨str "name.example.", TypeSRV, 300, str "1 0 80 first.example."⟩,
               ⟨str "name.example.", TypeSRV, 300, str "65536 0 80 host"⟩,
               ⟨str "name.example.", TypeSRV, 300, str "-1 65537 -65535 neg.example."⟩] }

/-- A status-0 TXT response with preferences outside the 16-bit range. -/
def respMXwrap : response :=
  { Status := 0,
    Answer := [⟨str "name.example.", TypeTXT, 300, str "7 seven.example."⟩,
               ⟨str "name.example.", TypeTXT, 300, str "65541 wrapped.example."⟩,
               ⟨str "name.example.", TypeTXT, 300, str "-65536 zero.example."⟩] }

/-- A status-0 SRV response whose only entry has three fields, all integers. -/
def respSRVshort : response :=
  { Status := 0, Answer := [⟨str "name.example.", TypeSRV, 300, str "70000 -1 65536"⟩] }

/-- A status-0 TXT response whose only entry is the single field `5`. -/
def respMXshort : response :=
  { Status := 0, Answer := [⟨str "name.example.", TypeTXT, 300, str "5"⟩] }

/-- A table standing for `dns.TypeToString`, restricted to the record types of
the decoders. -/
def typeNames (t : Nat) : Option GoString :=
  if t = 1 then some (str "A") else if t = 2 then some (str "NS")
  else if t = 5 then some (str "CNAME") else if t = 12 then some (str "PTR")
  else if t = 15 then some (str "MX") else if t = 16 then some (str "TXT")
  else if t = 28 then some (str "AAAA") else if t = 33 then some (str "SRV")
  else none

/-! ## Lemmas on the loop of `Query` -/

theorem collectDatas_eq_filter_map (t : dnsType) (l : List answer) :
    collectDatas t l = (l.filter (usable t)).map (fun a => unquote a.Data) := by
  induction l with
  | nil => rfl
  | cons a rest ih =>
    by_cases h : a.Type_ ≠ t ∨ a.TTL = 0
    · have hu : usable t a = false := by
        rcases h with h | h
        · simp [usable, h]
        · simp [usable, h]
      simp [collectDatas, h, hu, ih]
    · have hu : usable t a = true := by
        simp only [not_or, not_not] at h
        simp [usable, h.1, h.2]
      simp [collectDatas, h, hu, ih]

theorem collectDatas_ne_nil (t : dnsType) (l : List answer)
    (h : ∃ a ∈ l, a.Type_ = t ∧ a.TTL ≠ 0) : collectDatas t l ≠ [] := by
  obtain ⟨a, ha, h1, h2⟩ := h
  rw [collectDatas_eq_filter_map]
  intro hnil
  have hmem : a ∈ l.filter (usable t) := by
    rw [List.mem_filter]
    exact ⟨ha, by simp [usable, h1, h2]⟩
  rw [List.map_eq_nil_iff] at hnil
  rw [hnil] at hmem
  exact absurd hmem (List.not_mem_nil a)

theorem queryLoop_skipped (launched : List GoString) (domain : GoString) (t : dnsType)
    (pre : List result) (hpre : ∀ x ∈ pre, x.skipped = true) :
    ∀ (n : Nat) (rest : List event) (errsString : List GoString) (selects : Nat),
      queryLoop launched domain t (pre.length + n) (arrivals pre ++ rest) errsString selects
        = queryLoop launched domain t n rest (errsString ++ failures pre)
            (selects + pre.length) := by
  induction pre with
  | nil => intro n rest errsString selects; simp [arrivals, failures]
  | cons x pre ih =>
    intro n rest errsString selects
    have hx : x.skipped = true := hpre x (List.mem_cons_self _ _)
    have hpre2 : ∀ y ∈ pre, y.skipped = true := fun y hy => hpre y (List.mem_cons_of_mem _ hy)
    have hlen : (x :: pre).length + n = (pre.length + n) + 1 := by simp; omega
    rw [hlen]
    cases x with
    | failed msg =>
      have := ih hpre2 n rest (errsString ++ [msg]) (selects + 1)
      simp only [arrivals] at this
      simp only [arrivals, List.map_cons, List.cons_append, queryLoop, failures,
        List.length_cons]
      rw [show selects + (pre.length + 1) = selects + 1 + pre.length by omega]
      simpa using this
    | ok resp =>
      have hs : resp.Status ≠ 0 := by simpa [result.skipped] using hx
      have := ih hpre2 n rest errsString (selects + 1)
      simp only [arrivals] at this
      simp only [arrivals, List.map_cons, List.cons_append, queryLoop, failures,
        List.length_cons, hs, ne_eq, not_false_eq_true, if_true]
      rw [show selects + (pre.length + 1) = selects + 1 + pre.length by omega]
      simpa using this

theorem queryLoop_success (launched : List GoString) (domain : GoString) (t : dnsType) :
    ∀ (n : Nat) (sched : List event) (errsString : List GoString) (selects : Nat)
      (run : QueryRun),
      queryLoop launched domain t n sched errsString selects = some run → run.err = none →
      ∃ resp, event.recv (.ok resp) ∈ sched ∧ resp.Status = 0 ∧
        run.datas = collectDatas t resp.Answer ∧ run.datas ≠ [] := by
  intro n
  induction n with
  | zero =>
    intro sched errsString selects run h herr
    simp only [queryLoop, Option.some.injEq] at h
    subst h
    simp at herr
  | succ n ih =>
    intro sched errsString selects run h herr
    match sched, h with
    | [], h => simp [queryLoop] at h
    | .done e :: _, h =>
      simp only [queryLoop, Option.some.injEq] at h
      subst h
      simp at herr
    | .recv (.failed msg) :: rest, h =>
      simp only [queryLoop] at h
      obtain ⟨resp, hm, hrest⟩ := ih rest _ _ run h herr
      exact ⟨resp, List.mem_cons_of_mem _ hm, hrest⟩
    | .recv (.ok res) :: rest, h =>
      simp only [queryLoop] at h
      by_cases hs : res.Status ≠ 0
      · rw [if_pos hs] at h
        obtain ⟨resp, hm, hrest⟩ := ih rest _ _ run h herr
        exact ⟨resp, List.mem_cons_of_mem _ hm, hrest⟩
      · rw [if_neg hs] at h
        simp only [not_not] at hs
        by_cases hd : (collectDatas t res.Answer).length = 0
        · simp only [hd, if_true, Option.some.injEq] at h
          subst h
          simp at herr
        · simp only [hd, if_false, Option.some.injEq] at h
          subst h
          refine ⟨res, List.mem_cons_self _ _, hs, rfl, ?_⟩
          intro hnil
          exact hd (by simpa using hnil)

/-! ## The query race -/

theorem exists_first_not_skipped (rs : List result) (h : ∃ x ∈ rs, x.skipped = false) :
    ∃ pre x post, rs = pre ++ x :: post ∧ (∀ y ∈ pre, y.skipped = true) ∧
      x.skipped = false := by
  induction rs with
  | nil => obtain ⟨x, hx, _⟩ := h; exact absurd hx (List.not_mem_nil x)
  | cons a rest ih =>
    by_cases ha : a.skipped = true
    · have h2 : ∃ x ∈ rest, x.skipped = false := by
        obtain ⟨x, hx, hs⟩ := h
        rcases List.mem_cons.mp hx with rfl | hx
        · rw [ha] at hs; exact absurd hs (by decide)
        · exact ⟨x, hx, hs⟩
      obtain ⟨pre, x, post, he, hp, hx⟩ := ih h2
      refine ⟨a :: pre, x, post, by rw [he]; rfl, ?_, hx⟩
      intro y hy
      rcases List.mem_cons.mp hy with rfl | hy
      · exact ha
      · exact hp y hy
    · exact ⟨[], a, rest, rfl, fun y hy => absurd hy (List.not_mem_nil y), by simpa using ha⟩

theorem collectDatas_eq_nil (t : dnsType) (l : List answer) (h : l.any (usable t) = false) :
    collectDatas t l = [] := by
  rw [collectDatas_eq_filter_map, List.map_eq_nil_iff, List.filter_eq_nil_iff]
  intro a ha
  have := List.any_eq_false.mp h a ha
  simpa using this

theorem queryLoop_first_clean (launched : List GoString) (domain : GoString) (t : dnsType)
    (pre post : List result) (resp : response) (n : Nat) (hpre : ∀ x ∈ pre, x.skipped = true)
    (hst : resp.Status = 0) :
    queryLoop launched domain t (pre.length + (n + 1)) (arrivals (pre ++ .ok resp :: post)) [] 0
      = if (collectDatas t resp.Answer).length = 0 then
          some ⟨launched, pre.length + 1, [], some (.dohError .ErrNoAnswer domain t)⟩
        else some ⟨launched, pre.length + 1, collectDatas t resp.Answer, none⟩ := by
  have h := queryLoop_skipped launched domain t pre hpre (n + 1)
    (arrivals (.ok resp :: post)) [] 0
  have e : arrivals (pre ++ .ok resp :: post) = arrivals pre ++ arrivals (.ok resp :: post) := by
    simp [arrivals]
  rw [e, h]
  simp [arrivals, queryLoop, hst]

/-- C1, as stated, fails: two providers, no cancellation, and the second result
to arrive is a status-0 response with a usable A record; but a status-0
response without answers arrived first, and `Query` returns no data and the
`ErrNoAnswer` failure. -/
theorem Query_some_usable_counterexample :
    twoProviders.Providers ≠ [] ∧
    [result.ok respEmpty, result.ok respA].length = twoProviders.Providers.length ∧
    (result.ok respA ∈ [result.ok respEmpty, result.ok respA] ∧ respA.Status = 0 ∧
      ∃ a ∈ respA.Answer, a.Type_ = TypeA ∧ a.TTL ≠ 0) ∧
    twoProviders.Query (arrivals [.ok respEmpty, .ok respA]) (str "dohtest.poohvpn.com") TypeA
      = some ⟨twoProviders.Providers, 1, [],
          some (.dohError .ErrNoAnswer (str "dohtest.poohvpn.com") TypeA)⟩ := by
  refine ⟨by decide, by decide, ⟨by decide, by decide, ?_⟩, by decide⟩
  exact ⟨⟨str "dohtest.poohvpn.com.", TypeA, 60, str "2.2.2.2"⟩, by decide, by decide,
    by decide⟩

/-- C1, amended: for a provider list (non-empty, since one result arrives per
provider), all results arriving and no cancellation, if the first result in
arrival order that is error-free with status 0 (every earlier one being a
failure or a non-zero status) has an answer entry of the requested type with
nonzero TTL, then `Query` returns a non-empty list of strings and no error. -/
theorem Query_first_clean_usable (r : Resolver) (domain : GoString) (t : dnsType)
    (pre post : List result) (resp : response)
    (hlen : (pre ++ .ok resp :: post).length = r.Providers.length)
    (hpre : ∀ x ∈ pre, x.skipped = true)
    (hst : resp.Status = 0)
    (hus : ∃ a ∈ resp.Answer, a.Type_ = t ∧ a.TTL ≠ 0) :
    ∃ run, r.Query (arrivals (pre ++ .ok resp :: post)) domain t = some run ∧
      run.datas ≠ [] ∧ run.err = none := by
  have hd : collectDatas t resp.Answer ≠ [] := collectDatas_ne_nil t resp.Answer hus
  have hd2 : ¬ (collectDatas t resp.Answer).length = 0 := by
    intro h; exact hd (List.length_eq_zero.mp h)
  have hl : r.Providers.length = pre.length + (post.length + 1) := by
    rw [← hlen]; simp
  have hp : ¬ r.Providers.length = 0 := by omega
  refine ⟨⟨r.Providers, pre.length + 1, collectDatas t resp.Answer, none⟩, ?_, hd, rfl⟩
  unfold Resolver.Query
  simp only [hp, if_false]
  rw [hl, queryLoop_first_clean r.Providers domain t pre post resp post.length hpre hst]
  simp [hd2]

/-- Witness for `Query_first_clean_usable`: a failure and a SERVFAIL response
arrive before the usable response of the third provider. -/
theorem Query_first_clean_usable_witness :
    ∃ run, (Resolver.mk [str "p1", str "p2", str "p3"]).Query
        (arrivals ([.failed (str "timeout"), .ok respServfail] ++ .ok respA :: []))
        (str "dohtest.poohvpn.com") TypeA = some run ∧
      run.datas ≠ [] ∧ run.err = none :=
  Query_first_clean_usable ⟨[str "p1", str "p2", str "p3"]⟩ (str "dohtest.poohvpn.com") TypeA
    [.failed (str "timeout"), .ok respServfail] [] respA (by decide) (by decide)
    (by decide)
    ⟨⟨str "dohtest.poohvpn.com.", TypeA, 60, str "2.2.2.2"⟩, by decide, by decide,
      by decide⟩

/-- C2: whenever `Query` returns without error, for any resolver, schedule of
cancellation and arrivals, domain and record type, the returned list has
length at least 1. -/
theorem Query_success_nonempty (r : Resolver) (sched : List event) (domain : GoString)
    (t : dnsType) (run : QueryRun) (h : r.Query sched domain t = some run)
    (herr : run.err = none) : 1 ≤ run.datas.length := by
  unfold Resolver.Query at h
  by_cases hp : r.Providers.length = 0
  · simp only [hp, if_true, Option.some.injEq] at h
    subst h
    simp at herr
  · simp only [hp, if_false] at h
    obtain ⟨_, _, _, _, hne⟩ := queryLoop_success r.Providers domain t _ sched [] 0 run h herr
    exact List.length_pos.mpr hne

/-- Witness for `Query_success_nonempty`: a failure, then a usable response. -/
theorem Query_success_nonempty_witness :
    1 ≤ (QueryRun.mk twoProviders.Providers 2 [str "2.2.2.2"] none).datas.length :=
  Query_success_nonempty twoProviders [.recv (.failed (str "timeout")), .recv (.ok respA)]
    (str "dohtest.poohvpn.com") TypeA ⟨twoProviders.Providers, 2, [str "2.2.2.2"], none⟩
    (by decide) rfl

/-- C3: whenever `Query` succeeds, the returned list is, in order, the
quote-stripped data of exactly the entries of one received status-0 response
whose type is `t` and whose TTL is not 0. -/
theorem Query_success_single_response (r : Resolver) (sched : List event) (domain : GoString)
    (t : dnsType) (run : QueryRun) (h : r.Query sched domain t = some run)
    (herr : run.err = none) :
    ∃ resp, event.recv (.ok resp) ∈ sched ∧ resp.Status = 0 ∧
      run.datas = (resp.Answer.filter (fun a => decide (a.Type_ = t ∧ a.TTL ≠ 0))).map
        (fun a => unquote a.Data) := by
  unfold Resolver.Query at h
  by_cases hp : r.Providers.length = 0
  · simp only [hp, if_true, Option.some.injEq] at h
    subst h
    simp at herr
  · simp only [hp, if_false] at h
    obtain ⟨resp, hm, hst, hd, _⟩ :=
      queryLoop_success r.Providers domain t _ sched [] 0 run h herr
    refine ⟨resp, hm, hst, ?_⟩
    rw [hd, collectDatas_eq_filter_map]
    congr 2
    funext a
    simp [usable]

/-- Witness for `Query_success_single_response`: the TXT response that mixes
quoted, foreign-type and TTL-0 entries wins after a SERVFAIL response. -/
theorem Query_success_single_response_witness :
    ∃ resp, event.recv (.ok resp) ∈ [event.recv (.ok respServfail), .recv (.ok respTXT)] ∧
      resp.Status = 0 ∧
      (QueryRun.mk twoProviders.Providers 2 [str "dohtest", str "plain"] none).datas
        = (resp.Answer.filter (fun a => decide (a.Type_ = TypeTXT ∧ a.TTL ≠ 0))).map
          (fun a => unquote a.Data) :=
  Query_success_single_response twoProviders [.recv (.ok respServfail), .recv (.ok respTXT)]
    (str "dohtest.poohvpn.com") TypeTXT
    ⟨twoProviders.Providers, 2, [str "dohtest", str "plain"], none⟩ (by decide) rfl

/-! ## Quote stripping -/

theorem unquote_cond_iff (d : GoString) :
    (d.length ≥ 2 ∧ d[0]? = some dquote ∧ d[d.length - 1]? = some dquote) ↔
      (2 ≤ d.length ∧ d.head? = some dquote ∧ d.getLast? = some dquote) := by
  rw [List.head?_eq_getElem?, List.getLast?_eq_getElem?]

theorem unquote_quoted (mid : GoString) : unquote (dquote :: (mid ++ [dquote])) = mid := by
  have hc : (dquote :: (mid ++ [dquote])).length ≥ 2 ∧
      (dquote :: (mid ++ [dquote]))[0]? = some dquote ∧
      (dquote :: (mid ++ [dquote]))[(dquote :: (mid ++ [dquote])).length - 1]? = some dquote := by
    rw [unquote_cond_iff]
    refine ⟨by simp, by simp, ?_⟩
    rw [← List.cons_append, List.getLast?_append]
    simp
  unfold unquote
  rw [if_pos hc]
  simp [slice, List.take_append_eq_append_take]

theorem eq_quoted_of_cond (d : GoString)
    (h : 2 ≤ d.length ∧ d.head? = some dquote ∧ d.getLast? = some dquote) :
    ∃ mid, d = dquote :: (mid ++ [dquote]) := by
  obtain ⟨hl, hh, hg⟩ := h
  match d, hl, hh, hg with
  | a :: rest, hl, hh, hg =>
    have ha : a = dquote := by simpa using hh
    have hr : rest ≠ [] := by
      intro hr
      rw [hr] at hl
      simp at hl
    have hg2 : rest.getLast? = some dquote := by
      match rest, hr, hg with
      | b :: rest2, _, hg => simpa [List.getLast?_cons_cons] using hg
    refine ⟨rest.dropLast, ?_⟩
    rw [ha]
    congr 1
    have := List.dropLast_append_getLast? dquote (by simpa using hg2)
    exact this.symm

/-- C4: the string `Query` surfaces for an entry with data `d` is `unquote d`;
if `d` has length at least 2 and its first and last byte are the double quote,
then `d` is a quote, followed by `unquote d`, followed by a quote (exactly one
pair is removed); otherwise `unquote d = d`, in particular whenever `d` does not
both start and end with a quote.  Examples: `""x""` gives `"x"`, `"dohtest"`
gives `dohtest`, and `dohtest` is unchanged. -/
theorem unquote_spec (d : GoString) :
    (∀ (name domain : GoString) (t : dnsType) (ttl : Int), ttl ≠ 0 →
      oneProvider.Query [.recv (.ok { Status := 0, Answer := [⟨name, t, ttl, d⟩] })]
          domain t
        = some ⟨oneProvider.Providers, 1, [unquote d], none⟩) ∧
    ((2 ≤ d.length ∧ d.head? = some dquote ∧ d.getLast? = some dquote) →
      d = dquote :: (unquote d ++ [dquote])) ∧
    (¬ (2 ≤ d.length ∧ d.head? = some dquote ∧ d.getLast? = some dquote) →
      unquote d = d) ∧
    (¬ (d.head? = some dquote ∧ d.getLast? = some dquote) → unquote d = d) ∧
    unquote (str "\"\"x\"\"") = str "\"x\"" ∧
    unquote (str "\"dohtest\"") = str "dohtest" ∧
    unquote (str "dohtest") = str "dohtest" := by
  have hno : ¬ (2 ≤ d.length ∧ d.head? = some dquote ∧ d.getLast? = some dquote) →
      unquote d = d := by
    intro h
    unfold unquote
    rw [if_neg]
    rw [unquote_cond_iff]
    exact h
  refine ⟨?_, ?_, hno, ?_, by decide, by decide, by decide⟩
  · intro name domain t ttl httl
    simp [Resolver.Query, oneProvider, queryLoop, collectDatas, httl]
  · intro h
    obtain ⟨mid, hmid⟩ := eq_quoted_of_cond d h
    rw [hmid, unquote_quoted]
  · intro h
    exact hno (fun h2 => h h2.2)

/-- Witness for `unquote_spec`: a lone quote character has length 1 and is
surfaced unchanged. -/
theorem unquote_spec_witness : unquote (str "\"") = str "\"" :=
  (unquote_spec (str "\"")).2.2.1 (by decide)

/-! ## Failure of the race -/

theorem Join_eq_intercalate (elems : List GoString) (sep : GoString) :
    Join elems sep = List.intercalate sep elems := by
  induction elems with
  | nil => rfl
  | cons a tl ih =>
    cases tl with
    | nil => simp [Join, List.intercalate]
    | cons b tl2 =>
      simp only [Join] at ih ⊢
      rw [ih]
      simp [List.intercalate, List.intersperse]

/-- C5, as stated, fails: one provider reports a status-0 response without
answers (so no provider produced a usable answer and none failed); `Query`
fails with cause `ErrNoAnswer`, whose text is the bytes of `no answer`, not
the (empty) join of the recorded failure messages. -/
theorem Query_all_unusable_counterexample :
    oneProvider.Providers ≠ [] ∧
    [result.ok respEmpty].length = oneProvider.Providers.length ∧
    (∀ x ∈ [result.ok respEmpty], x.unusable TypeA = true) ∧
    oneProvider.Query (arrivals [.ok respEmpty]) (str "dohtest.poohvpn.com") TypeA
      = some ⟨oneProvider.Providers, 1, [],
          some (.dohError .ErrNoAnswer (str "dohtest.poohvpn.com") TypeA)⟩ ∧
    (∀ tbl, error.Error tbl .ErrNoAnswer = [110, 111, 32, 97, 110, 115, 119, 101, 114]) ∧
    List.intercalate [0x2C, 0x20] (failures [.ok respEmpty]) = [] := by
  refine ⟨by decide, by decide, by decide, by decide, ?_, by decide⟩
  intro tbl
  show str "no answer" = [110, 111, 32, 97, 110, 115, 119, 101, 114]
  decide

/-- C5, amended: if every provider has reported (no cancellation) and none
produced a usable answer, `Query` returns no data and a `dohError` carrying
the domain and the record type.  When every result is a failure or a non-zero
status, its cause is the error whose text is the failure messages in arrival
order with the two bytes `", "` between consecutive messages (responses
contribute no message): the failures `x` and `y` around a SERVFAIL response
give the text `x, y`.  When some result is a status-0 response (without usable
entry), its cause is `ErrNoAnswer` instead. -/
theorem Query_all_unusable (r : Resolver) (rs : List result) (domain : GoString) (t : dnsType)
    (hne : r.Providers ≠ []) (hlen : rs.length = r.Providers.length)
    (hall : ∀ x ∈ rs, x.unusable t = true) :
    (∃ run inner, r.Query (arrivals rs) domain t = some run ∧ run.datas = [] ∧
      run.err = some (.dohError inner domain t) ∧
      ((∀ x ∈ rs, x.skipped = true) →
        inner = .errorString (List.intercalate [0x2C, 0x20] (failures rs)) ∧
        ∀ tbl, error.Error tbl inner = List.intercalate [0x2C, 0x20] (failures rs)) ∧
      ((∃ x ∈ rs, x.skipped = false) → inner = .ErrNoAnswer)) ∧
    (Resolver.mk [[0x61], [0x62], [0x63]]).Query
        (arrivals [.failed [0x78], .ok respServfail, .failed [0x79]]) [0x64] TypeA
      = some ⟨[[0x61], [0x62], [0x63]], 3, [],
          some (.dohError (.errorString [0x78, 0x2C, 0x20, 0x79]) [0x64] TypeA)⟩ := by
  refine ⟨?_, by decide⟩
  have hp : ¬ r.Providers.length = 0 := by
    intro h; exact hne (List.length_eq_zero.mp h)
  have hj : Join (failures rs) (str ", ") = List.intercalate [0x2C, 0x20] (failures rs) := by
    rw [Join_eq_intercalate]
    rfl
  by_cases hsk : ∀ x ∈ rs, x.skipped = true
  · refine ⟨⟨r.Providers, rs.length, [],
      some (.dohError (.errorString (List.intercalate [0x2C, 0x20] (failures rs))) domain t)⟩,
      .errorString (List.intercalate [0x2C, 0x20] (failures rs)), ?_, rfl, rfl, ?_, ?_⟩
    · unfold Resolver.Query
      simp only [hp, if_false]
      have h := queryLoop_skipped r.Providers domain t rs hsk 0 [] [] 0
      simp only [Nat.add_zero, List.append_nil, List.nil_append, Nat.zero_add] at h
      rw [← hlen, h, ← hj]
      rfl
    · intro _
      exact ⟨rfl, fun _ => rfl⟩
    · intro ⟨x, hx, hxs⟩
      rw [hsk x hx] at hxs
      exact absurd hxs (by decide)
  · have hex : ∃ x ∈ rs, x.skipped = false := by
      by_contra hcon
      apply hsk
      intro x hx
      by_contra hx2
      exact hcon ⟨x, hx, by simpa using hx2⟩
    obtain ⟨pre, x, post, he, hpre, hx⟩ := exists_first_not_skipped rs hex
    have hxu : x.unusable t = true := hall x (by rw [he]; simp)
    match x, hx, hxu, he with
    | .ok resp, hx, hxu, he =>
      have hst : resp.Status = 0 := by simpa [result.skipped] using hx
      have hany : resp.Answer.any (usable t) = false := by
        simpa [result.unusable, hst] using hxu
      have hd : collectDatas t resp.Answer = [] := collectDatas_eq_nil t resp.Answer hany
      have hl : r.Providers.length = pre.length + (post.length + 1) := by
        rw [← hlen, he]; simp
      refine ⟨⟨r.Providers, pre.length + 1, [], some (.dohError .ErrNoAnswer domain t)⟩,
        .ErrNoAnswer, ?_, rfl, rfl, ?_, fun _ => rfl⟩
      · unfold Resolver.Query
        simp only [hp, if_false]
        rw [hl, he, queryLoop_first_clean r.Providers domain t pre post resp post.length hpre hst]
        simp [hd]
      · intro hsk2
        exact absurd hsk2 hsk

/-- Witness for `Query_all_unusable`: the failures `timeout` and `refused`
around a SERVFAIL response; the cause text is `timeout, refused`. -/
theorem Query_all_unusable_witness :
    ∃ run, (Resolver.mk [str "p1", str "p2", str "p3"]).Query
        (arrivals [.failed (str "timeout"), .ok respServfail, .failed (str "refused")])
        (str "dohtest.poohvpn.com") TypeA = some run ∧ run.datas = [] ∧
      run.err = some (.dohError
        (.errorString [116, 105, 109, 101, 111, 117, 116, 44, 32, 114, 101, 102, 117, 115,
          101, 100])
        (str "dohtest.poohvpn.com") TypeA) := by
  obtain ⟨run, inner, hq, hd, he, hsk, _⟩ :=
    (Query_all_unusable ⟨[str "p1", str "p2", str "p3"]⟩
      [.failed (str "timeout"), .ok respServfail, .failed (str "refused")]
      (str "dohtest.poohvpn.com") TypeA (by decide) (by decide) (by decide)).1
  have hi := (hsk (by decide)).1
  refine ⟨run, hq, hd, ?_⟩
  rw [he, hi]
  decide

/-- C6: with an empty provider list, whatever the schedule (context done or
not), domain and record type, `Query` returns no data and the error
`no provider`; no provider query is started and no `select` is executed. -/
theorem Query_no_provider (r : Resolver) (sched : List event) (domain : GoString) (t : dnsType)
    (h : r.Providers = []) :
    r.Query sched domain t = some ⟨[], 0, [], some (.errorString (str "no provider"))⟩ := by
  simp [Resolver.Query, h]

/-- Witness for `Query_no_provider`: the context is already cancelled. -/
theorem Query_no_provider_witness :
    (Resolver.mk []).Query [.done (.errorString (str "context canceled"))]
        (str "dohtest.poohvpn.com") TypeA
      = some ⟨[], 0, [], some (.errorString (str "no provider"))⟩ :=
  Query_no_provider ⟨[]⟩ [.done (.errorString (str "context canceled"))]
    (str "dohtest.poohvpn.com") TypeA rfl

/-- C7: with at least one provider, if the first event the loop observes is the
context being done, `Query` returns no data and a `dohError` carrying the
domain, the record type and the context error as cause, whatever the rest of
the schedule (the results the providers would have delivered) is. -/
theorem Query_cancelled_first (r : Resolver) (ctxErr : error) (rest : List event)
    (domain : GoString) (t : dnsType) (h : r.Providers ≠ []) :
    r.Query (.done ctxErr :: rest) domain t
      = some ⟨r.Providers, 1, [], some (.dohError ctxErr domain t)⟩ := by
  have hp : ¬ r.Providers.length = 0 := by
    intro h0; exact h (List.length_eq_zero.mp h0)
  unfold Resolver.Query
  simp only [hp, if_false]
  obtain ⟨n, hn⟩ := Nat.exists_eq_succ_of_ne_zero hp
  rw [hn]
  rfl

/-- Witness for `Query_cancelled_first`: a usable response would have arrived
right after the cancellation. -/
theorem Query_cancelled_first_witness :
    twoProviders.Query [.done (.errorString (str "context canceled")), .recv (.ok respA)]
        (str "dohtest.poohvpn.com") TypeA
      = some ⟨twoProviders.Providers, 1, [],
          some (.dohError (.errorString (str "context canceled"))
            (str "dohtest.poohvpn.com") TypeA)⟩ :=
  Query_cancelled_first twoProviders (.errorString (str "context canceled"))
    [.recv (.ok respA)] (str "dohtest.poohvpn.com") TypeA (by decide)

/-! ## Lemmas on the decoders -/

theorem Query_ok_datas_ne_nil (r : Resolver) (sched : List event) (domain : GoString)
    (t : dnsType) (run : QueryRun) (h : r.Query sched domain t = some run)
    (herr : run.err = none) : run.datas ≠ [] := by
  unfold Resolver.Query at h
  by_cases hp : r.Providers.length = 0
  · simp only [hp, if_true, Option.some.injEq] at h
    subst h
    simp at herr
  · simp only [hp, if_false] at h
    obtain ⟨_, _, _, _, hne⟩ := queryLoop_success r.Providers domain t _ sched [] 0 run h herr
    exact hne

theorem sinkLess_perm {α : Type} (less : α → α → Bool) (x : α) (l : List α) :
    (sinkLess less x l).Perm (x :: l) := by
  induction l with
  | nil => exact List.Perm.refl _
  | cons p before ih =>
    by_cases h : less x p = true
    · simp only [sinkLess, h, if_true]
      exact (List.Perm.cons p ih).trans (List.Perm.swap x p before)
    · have h2 : less x p = false := by simpa using h
      simp only [sinkLess, h2, Bool.false_eq_true, if_false]
      exact List.Perm.refl _

theorem foldl_sinkLess_perm {α : Type} (less : α → α → Bool) (l : List α) :
    ∀ acc : List α,
      (l.foldl (fun sortedRev a => sinkLess less a sortedRev) acc).Perm (l ++ acc) := by
  induction l with
  | nil => intro acc; exact List.Perm.refl _
  | cons a l ih =>
    intro acc
    simp only [List.foldl_cons, List.cons_append]
    refine (ih (sinkLess less a acc)).trans ?_
    refine (List.Perm.append_left l (sinkLess_perm less a acc)).trans ?_
    exact List.perm_middle

theorem insertionSort_perm {α : Type} (less : α → α → Bool) (l : List α) :
    (insertionSort less l).Perm l := by
  unfold insertionSort
  refine (List.reverse_perm _).trans ?_
  simpa using foldl_sinkLess_perm less l []

theorem sinkLess_pairwise {α : Type} (less : α → α → Bool)
    (hasymm : ∀ a b, less a b = true → less b a = false)
    (htrans : ∀ a b c, less a b = false → less b c = false → less a c = false)
    (x : α) (l : List α) (h : l.Pairwise (fun a b => less a b = false)) :
    (sinkLess less x l).Pairwise (fun a b => less a b = false) := by
  induction l with
  | nil => simp [sinkLess]
  | cons p before ih =>
    rw [List.pairwise_cons] at h
    by_cases hx : less x p = true
    · simp only [sinkLess, hx, if_true]
      rw [List.pairwise_cons]
      refine ⟨?_, ih h.2⟩
      intro b hb
      have hb2 : b ∈ x :: before := (sinkLess_perm less x before).subset hb
      rcases List.mem_cons.mp hb2 with rfl | hb3
      · exact hasymm _ _ hx
      · exact h.1 b hb3
    · have hx2 : less x p = false := by simpa using hx
      simp only [sinkLess, hx2, Bool.false_eq_true, if_false]
      rw [List.pairwise_cons]
      refine ⟨?_, List.pairwise_cons.mpr h⟩
      intro b hb
      rcases List.mem_cons.mp hb with rfl | hb3
      · exact hx2
      · exact htrans x p b hx2 (h.1 b hb3)

theorem foldl_sinkLess_pairwise {α : Type} (less : α → α → Bool)
    (hasymm : ∀ a b, less a b = true → less b a = false)
    (htrans : ∀ a b c, less a b = false → less b c = false → less a c = false)
    (l : List α) :
    ∀ acc : List α, acc.Pairwise (fun a b => less a b = false) →
      (l.foldl (fun sortedRev a => sinkLess less a sortedRev) acc).Pairwise
        (fun a b => less a b = false) := by
  induction l with
  | nil => intro acc h; exact h
  | cons a l ih =>
    intro acc h
    simp only [List.foldl_cons]
    exact ih _ (sinkLess_pairwise less hasymm htrans a acc h)

theorem insertionSort_pairwise {α : Type} (less : α → α → Bool)
    (hasymm : ∀ a b, less a b = true → less b a = false)
    (htrans : ∀ a b c, less a b = false → less b c = false → less a c = false)
    (l : List α) : (insertionSort less l).Pairwise (fun a b => less b a = false) := by
  unfold insertionSort
  rw [List.pairwise_reverse]
  exact foldl_sinkLess_pairwise less hasymm htrans l [] List.Pairwise.nil

theorem srvLess_asymm (a b : SRV) (h : srvLess a b = true) : srvLess b a = false := by
  simp only [srvLess, Bool.or_eq_true, Bool.and_eq_true, decide_eq_true_eq] at h
  simp only [srvLess, Bool.or_eq_false_iff, Bool.and_eq_false_iff, decide_eq_false_iff_not]
  omega

theorem srvLess_negtrans (a b c : SRV) (h1 : srvLess a b = false) (h2 : srvLess b c = false) :
    srvLess a c = false := by
  simp only [srvLess, Bool.or_eq_false_iff, Bool.and_eq_false_iff, decide_eq_false_iff_not]
    at h1 h2 ⊢
  omega

theorem srvLess_strictWeak : StrictWeak srvLess := ⟨srvLess_asymm, srvLess_negtrans⟩

theorem mxLess_strictWeak : StrictWeak mxLess := by
  refine ⟨?_, ?_⟩
  · intro a b h
    simp only [mxLess, decide_eq_true_eq] at h
    simp only [mxLess, decide_eq_false_iff_not]
    omega
  · intro a b c h1 h2
    simp only [mxLess, decide_eq_false_iff_not] at h1 h2 ⊢
    omega

theorem insertionSort_contract : SliceContract (fun _ less x => insertionSort less x) := by
  intro α less x
  exact ⟨insertionSort_perm less x, fun h => insertionSort_pairwise less h.1 h.2 x⟩

theorem sorted_eq_nil_iff (sortSlice : SliceSorter) (hsort : SliceContract sortSlice)
    {α : Type} (less : α → α → Bool) (l : List α) :
    sortSlice α less l = [] ↔ l = [] := by
  constructor
  · intro h
    have hp := (hsort α less l).1
    rw [h] at hp
    exact List.nil_perm.mp hp
  · intro h
    subst h
    exact List.perm_nil.mp (hsort α less []).1

theorem eq_of_perm_of_strict {α : Type} (less : α → α → Bool) :
    ∀ (out l : List α), l.Perm out → l.Pairwise (fun a b => less b a = false) →
      out.Pairwise (fun a b => less a b = true) → l = out := by
  intro out
  induction out with
  | nil => intro l hp _ _; exact List.perm_nil.mp hp
  | cons x xs ih =>
    intro l hp hl hout
    match l, hp, hl with
    | [], hp, _ => exact absurd hp.symm (List.cons_ne_nil x xs ∘ List.perm_nil.mp)
    | y :: ys, hp, hl =>
      rw [List.pairwise_cons] at hl hout
      have hyx : y = x := by
        by_contra hne
        have hy : y ∈ x :: xs := hp.subset (List.mem_cons_self _ _)
        have hy2 : y ∈ xs := by
          rcases List.mem_cons.mp hy with h | h
          · exact absurd h hne
          · exact h
        have hx : x ∈ y :: ys := hp.symm.subset (List.mem_cons_self _ _)
        have hx2 : x ∈ ys := by
          rcases List.mem_cons.mp hx with h | h
          · exact absurd h.symm hne
          · exact h
        have h1 : less x y = true := hout.1 y hy2
        have h2 : less x y = false := hl.1 x hx2
        rw [h1] at h2
        exact absurd h2 (by decide)
      subst hyx
      rw [ih ys (List.Perm.cons_inv hp) hl.2 hout.2]

theorem sorted_eq_of_strict (sortSlice : SliceSorter) (hsort : SliceContract sortSlice)
    {α : Type} (less : α → α → Bool) (hsw : StrictWeak less) (x out : List α)
    (hperm : out.Perm x) (hout : out.Pairwise (fun a b => less a b = true)) :
    sortSlice α less x = out :=
  eq_of_perm_of_strict less out (sortSlice α less x) ((hsort α less x).1.trans hperm.symm)
    ((hsort α less x).2 hsw) hout

theorem decodeSRV_pairwise (sortSlice : SliceSorter) (hsort : SliceContract sortSlice)
    (datas : List GoString) :
    (decodeSRV sortSlice datas).Pairwise
      (fun a b =>
        a.Priority ≤ b.Priority ∧ (a.Priority = b.Priority → a.Weight ≤ b.Weight)) := by
  have h := (hsort SRV srvLess (datas.filterMap parseSRV)).2 srvLess_strictWeak
  refine List.Pairwise.imp ?_ h
  intro a b hab
  simp only [srvLess, Bool.or_eq_false_iff, Bool.and_eq_false_iff, decide_eq_false_iff_not]
    at hab
  omega

theorem decodeMX_pairwise (sortSlice : SliceSorter) (hsort : SliceContract sortSlice)
    (datas : List GoString) :
    (decodeMX sortSlice datas).Pairwise (fun a b => a.Pref ≤ b.Pref) := by
  have h := (hsort MX mxLess (datas.filterMap parseMX)).2 mxLess_strictWeak
  refine List.Pairwise.imp ?_ h
  intro a b hab
  simp only [mxLess, decide_eq_false_iff_not] at hab
  omega

theorem filterMap_eq_nil_iff_all_none {α β : Type} (f : α → Option β) (l : List α) :
    l.filterMap f = [] ↔ ∀ d ∈ l, f d = none := by
  induction l with
  | nil => simp
  | cons a l ih =>
    cases hfa : f a with
    | none => simp [List.filterMap_cons, hfa, ih]
    | some b => simp [List.filterMap_cons, hfa]

/-! ## Record decoders -/

theorem LookupA_ok_ne_nil (ParseIP : GoString → IP) (r : Resolver) (sched : List event)
    (name : GoString) (res : List IP)
    (h : r.LookupA ParseIP sched name = some (res, none)) : res ≠ [] := by
  unfold Resolver.LookupA at h
  cases hq : r.Query sched name TypeA with
  | none => simp [hq] at h
  | some run =>
    simp only [hq, Option.some.injEq] at h
    cases he : run.err with
    | some e => simp [parseIPs, he] at h
    | none =>
      have hne := Query_ok_datas_ne_nil r sched name TypeA run hq he
      simp only [parseIPs, he, Prod.mk.injEq, and_true] at h
      rw [← h]
      simpa using hne

theorem LookupAAAA_ok_ne_nil (ParseIP : GoString → IP) (r : Resolver) (sched : List event)
    (name : GoString) (res : List IP)
    (h : r.LookupAAAA ParseIP sched name = some (res, none)) : res ≠ [] := by
  unfold Resolver.LookupAAAA at h
  cases hq : r.Query sched name TypeAAAA with
  | none => simp [hq] at h
  | some run =>
    simp only [hq, Option.some.injEq] at h
    cases he : run.err with
    | some e => simp [parseIPs, he] at h
    | none =>
      have hne := Query_ok_datas_ne_nil r sched name TypeAAAA run hq he
      simp only [parseIPs, he, Prod.mk.injEq, and_true] at h
      rw [← h]
      simpa using hne

theorem LookupIP_ok_ne_nil (ParseIP : GoString → IP) (r : Resolver)
    (schedA schedAAAA : List event) (name : GoString) (res : List IP)
    (h : r.LookupIP ParseIP schedA schedAAAA name = some (res, none)) : res ≠ [] := by
  unfold Resolver.LookupIP at h
  cases hA : r.LookupA ParseIP schedA name with
  | none => simp [hA] at h
  | some pA =>
    obtain ⟨res4, err4⟩ := pA
    cases hB : r.LookupAAAA ParseIP schedAAAA name with
    | none => simp [hA, hB] at h
    | some pB =>
      obtain ⟨res6, err6⟩ := pB
      simp only [hA, hB] at h
      cases err4 with
      | none =>
        have h4 := LookupA_ok_ne_nil ParseIP r schedA name res4 hA
        have hl4 : 0 < res4.length := List.length_pos.mpr h4
        cases err6 with
        | none =>
          have hl : (res4 ++ res6).length > 0 := by simp; omega
          simp only [hl, if_true, Option.some.injEq, Prod.mk.injEq, and_true] at h
          rw [← h]
          intro hnil
          simp [hnil] at hl
        | some e6 =>
          simp only [hl4, gt_iff_lt, if_true, Option.some.injEq, Prod.mk.injEq, and_true] at h
          rw [← h]
          exact h4
      | some e4 =>
        cases err6 with
        | none =>
          have h6 := LookupAAAA_ok_ne_nil ParseIP r schedAAAA name res6 hB
          have hl6 : 0 < res6.length := List.length_pos.mpr h6
          simp only [List.nil_append, hl6, gt_iff_lt, if_true, Option.some.injEq, Prod.mk.injEq,
            and_true] at h
          rw [← h]
          exact h6
        | some e6 =>
          simp at h

theorem LookupSRV_eq (sortSlice : SliceSorter) (r : Resolver) (sched : List event)
    (service proto name : GoString) (run : QueryRun)
    (hq : r.Query sched (srvTarget service proto name) TypeSRV = some run)
    (he : run.err = none) :
    r.LookupSRV sortSlice sched service proto name
      = some (srvTarget service proto name ++ str ".", decodeSRV sortSlice run.datas, none) := by
  simp [Resolver.LookupSRV, hq, he]

theorem LookupMX_eq (sortSlice : SliceSorter) (r : Resolver) (sched : List event)
    (name : GoString) (run : QueryRun) (hq : r.Query sched name TypeTXT = some run)
    (he : run.err = none) :
    r.LookupMX sortSlice sched name = some (decodeMX sortSlice run.datas, none) := by
  simp [Resolver.LookupMX, hq, he]

theorem decodeSRV_eval (sortSlice : SliceSorter) (hsort : SliceContract sortSlice)
    (datas : List GoString) (parsed out : List SRV) (hp : datas.filterMap parseSRV = parsed)
    (hperm : out.Perm parsed) (hout : out.Pairwise (fun a b => srvLess a b = true)) :
    decodeSRV sortSlice datas = out := by
  unfold decodeSRV
  rw [hp]
  exact sorted_eq_of_strict sortSlice hsort srvLess srvLess_strictWeak parsed out hperm hout

theorem decodeMX_eval (sortSlice : SliceSorter) (hsort : SliceContract sortSlice)
    (datas : List GoString) (parsed out : List MX) (hp : datas.filterMap parseMX = parsed)
    (hperm : out.Perm parsed) (hout : out.Pairwise (fun a b => mxLess a b = true)) :
    decodeMX sortSlice datas = out := by
  unfold decodeMX
  rw [hp]
  exact sorted_eq_of_strict sortSlice hsort mxLess mxLess_strictWeak parsed out hperm hout

/-- C8, as stated, fails for `LookupSRV` and `LookupMX` (and `LookupCNAME` can
return the empty string): a successful query all of whose data strings are
malformed gives an empty record list together with a nil error, whatever
algorithm `sort.Slice` runs. -/
theorem decoders_empty_without_error_counterexample :
    parseSRV (str "a b c d") = none ∧ parseMX (str "mail.example") = none ∧
    (∀ sortSlice : SliceSorter, SliceContract sortSlice →
      oneProvider.LookupSRV sortSlice [.recv (.ok respSRVbad)] [] [] (str "name.example")
        = some (str "name.example.", [], none) ∧
      oneProvider.LookupMX sortSlice [.recv (.ok respMXbad)] (str "name.example")
        = some ([], none)) ∧
    oneProvider.LookupSRV (fun _ less x => insertionSort less x) [.recv (.ok respSRVbad)] [] []
        (str "name.example") = some (str "name.example.", [], none) ∧
    oneProvider.LookupCNAME [.recv (.ok respTXTempty)] (str "name.example")
      = some ([], none) := by
  refine ⟨by decide, by decide, ?_, by decide, by decide⟩
  intro sortSlice hsort
  have hq1 : oneProvider.Query [.recv (.ok respSRVbad)] (srvTarget [] [] (str "name.example"))
      TypeSRV = some ⟨oneProvider.Providers, 1, [str "a b c d"], none⟩ := by decide
  have hq2 : oneProvider.Query [.recv (.ok respMXbad)] (str "name.example") TypeTXT
      = some ⟨oneProvider.Providers, 1, [str "mail.example"], none⟩ := by decide
  have ht : srvTarget [] [] (str "name.example") ++ str "." = str "name.example." := by
    decide
  rw [LookupSRV_eq sortSlice _ _ _ _ _ _ hq1 rfl, LookupMX_eq sortSlice _ _ _ _ hq2 rfl, ht]
  have h1 : decodeSRV sortSlice [str "a b c d"] = [] := by
    unfold decodeSRV
    rw [sorted_eq_nil_iff sortSlice hsort]
    decide
  have h2 : decodeMX sortSlice [str "mail.example"] = [] := by
    unfold decodeMX
    rw [sorted_eq_nil_iff sortSlice hsort]
    decide
  simp only [h1, h2, and_self]

/-- C8, amended: for `LookupA`, `LookupAAAA`, `LookupIP`, `LookupNS`,
`LookupTXT` and `LookupAddr`, a return with nil error carries a non-empty
list; `LookupCNAME` returns with nil error the first string of a non-empty
query result.  `LookupSRV` and `LookupMX` return a nil error whenever the
query succeeds, and only then, and their record list is empty exactly when
every data string of the non-empty query result is malformed.  `sort.Slice`
is any function meeting its contract. -/
theorem decoders_result_or_error (sortSlice : SliceSorter) (hsort : SliceContract sortSlice)
    (ParseIP : GoString → IP) (r : Resolver)
    (sched sched2 : List event) (name service proto : GoString) :
    (∀ res, r.LookupA ParseIP sched name = some (res, none) → res ≠ []) ∧
    (∀ res, r.LookupAAAA ParseIP sched name = some (res, none) → res ≠ []) ∧
    (∀ res, r.LookupIP ParseIP sched sched2 name = some (res, none) → res ≠ []) ∧
    (∀ res, r.LookupNS sched name = some (res, none) → res ≠ []) ∧
    (∀ res, r.LookupTXT sched name = some (res, none) → res ≠ []) ∧
    (∀ res, r.LookupAddr sched name = some (res, none) → res ≠ []) ∧
    (∀ cname, r.LookupCNAME sched name = some (cname, none) →
      ∃ run, r.Query sched name TypeTXT = some run ∧ run.err = none ∧
        run.datas.head? = some cname) ∧
    (∀ cname res, r.LookupSRV sortSlice sched service proto name = some (cname, res, none) →
      ∃ run, r.Query sched (srvTarget service proto name) TypeSRV = some run ∧
        run.err = none ∧ run.datas ≠ [] ∧
        (res = [] ↔ ∀ d ∈ run.datas, parseSRV d = none)) ∧
    (∀ res, r.LookupMX sortSlice sched name = some (res, none) →
      ∃ run, r.Query sched name TypeTXT = some run ∧ run.err = none ∧ run.datas ≠ [] ∧
        (res = [] ↔ ∀ d ∈ run.datas, parseMX d = none)) ∧
    (∀ run, r.Query sched (srvTarget service proto name) TypeSRV = some run →
      run.err = none →
      ∃ res, r.LookupSRV sortSlice sched service proto name
          = some (srvTarget service proto name ++ str ".", res, none) ∧
        (res = [] ↔ ∀ d ∈ run.datas, parseSRV d = none)) ∧
    (∀ run, r.Query sched name TypeTXT = some run → run.err = none →
      ∃ res, r.LookupMX sortSlice sched name = some (res, none) ∧
        (res = [] ↔ ∀ d ∈ run.datas, parseMX d = none)) := by
  have hsrv : ∀ datas : List GoString,
      decodeSRV sortSlice datas = [] ↔ ∀ d ∈ datas, parseSRV d = none := by
    intro datas
    rw [decodeSRV, sorted_eq_nil_iff sortSlice hsort, filterMap_eq_nil_iff_all_none]
  have hmx : ∀ datas : List GoString,
      decodeMX sortSlice datas = [] ↔ ∀ d ∈ datas, parseMX d = none := by
    intro datas
    rw [decodeMX, sorted_eq_nil_iff sortSlice hsort, filterMap_eq_nil_iff_all_none]
  refine ⟨LookupA_ok_ne_nil ParseIP r sched name, LookupAAAA_ok_ne_nil ParseIP r sched name,
    LookupIP_ok_ne_nil ParseIP r sched sched2 name, ?_, ?_, ?_, ?_, ?_, ?_, ?_, ?_⟩
  · intro res h
    unfold Resolver.LookupNS at h
    cases hq : r.Query sched name TypeTXT with
    | none => simp [hq] at h
    | some run =>
      cases he : run.err with
      | some e => simp [hq, he] at h
      | none =>
        have hne := Query_ok_datas_ne_nil r sched name TypeTXT run hq he
        simp only [hq, he, Option.some.injEq, Prod.mk.injEq, and_true] at h
        rw [← h]
        simpa using hne
  · intro res h
    unfold Resolver.LookupTXT at h
    cases hq : r.Query sched name TypeTXT with
    | none => simp [hq] at h
    | some run =>
      simp only [hq, Option.some.injEq, Prod.mk.injEq] at h
      rw [← h.1]
      exact Query_ok_datas_ne_nil r sched name TypeTXT run hq h.2
  · intro res h
    unfold Resolver.LookupAddr at h
    cases hq : r.Query sched name TypePTR with
    | none => simp [hq] at h
    | some run =>
      simp only [hq, Option.some.injEq, Prod.mk.injEq] at h
      rw [← h.1]
      exact Query_ok_datas_ne_nil r sched name TypePTR run hq h.2
  · intro cname h
    unfold Resolver.LookupCNAME at h
    cases hq : r.Query sched name TypeTXT with
    | none => simp [hq] at h
    | some run =>
      cases he : run.err with
      | some e => simp [hq, he] at h
      | none =>
        refine ⟨run, rfl, he, ?_⟩
        cases hd : run.datas with
        | nil => simp [hq, he, hd] at h
        | cons first rest =>
          simp only [hq, he, hd, Option.some.injEq, Prod.mk.injEq, and_true] at h
          simp [h]
  · intro cname res h
    unfold Resolver.LookupSRV at h
    cases hq : r.Query sched (srvTarget service proto name) TypeSRV with
    | none => simp [hq] at h
    | some run =>
      cases he : run.err with
      | some e => simp [hq, he] at h
      | none =>
        refine ⟨run, rfl, he, Query_ok_datas_ne_nil r sched _ TypeSRV run hq he, ?_⟩
        simp only [hq, he, Option.some.injEq, Prod.mk.injEq, and_true] at h
        rw [← h.2]
        exact hsrv run.datas
  · intro res h
    unfold Resolver.LookupMX at h
    cases hq : r.Query sched name TypeTXT with
    | none => simp [hq] at h
    | some run =>
      cases he : run.err with
      | some e => simp [hq, he] at h
      | none =>
        refine ⟨run, rfl, he, Query_ok_datas_ne_nil r sched _ TypeTXT run hq he, ?_⟩
        simp only [hq, he, Option.some.injEq, Prod.mk.injEq, and_true] at h
        rw [← h]
        exact hmx run.datas
  · intro run hq he
    exact ⟨decodeSRV sortSlice run.datas,
      LookupSRV_eq sortSlice r sched service proto name run hq he, hsrv run.datas⟩
  · intro run hq he
    exact ⟨decodeMX sortSlice run.datas, LookupMX_eq sortSlice r sched name run hq he,
      hmx run.datas⟩

/-- Witness for `decoders_result_or_error`: `LookupSRV` on the SRV response
with three well-formed entries returns a nil error and a list that is not
empty. -/
theorem decoders_result_or_error_witness :
    ∃ res, oneProvider.LookupSRV (fun _ less x => insertionSort less x)
        [.recv (.ok respSRV)] [] [] (str "name.example")
          = some (srvTarget [] [] (str "name.example") ++ str ".", res, none) ∧
      (res = [] ↔ ∀ d ∈ (QueryRun.mk oneProvider.Providers 1
        [str "10 5 80 a.example.", str "10 1 80 b.example.", str "a b c d",
         str "1 9 443 c.example."] none).datas, parseSRV d = none) :=
  (decoders_result_or_error (fun _ less x => insertionSort less x) insertionSort_contract
    (fun _ => []) oneProvider [.recv (.ok respSRV)] [] (str "name.example")
    [] []).2.2.2.2.2.2.2.2.2.1
    ⟨oneProvider.Providers, 1,
      [str "10 5 80 a.example.", str "10 1 80 b.example.", str "a b c d",
       str "1 9 443 c.example."], none⟩ (by decide) rfl

/-- C9: the record list that `LookupSRV` returns after a successful query is
sorted, for every algorithm of `sort.Slice` that meets its contract: of two
adjacent records the earlier one has the smaller or equal priority, and with
equal priorities the smaller or equal weight. -/
theorem LookupSRV_sorted (sortSlice : SliceSorter) (hsort : SliceContract sortSlice)
    (r : Resolver) (sched : List event) (service proto name : GoString)
    (cname : GoString) (res : List SRV)
    (h : r.LookupSRV sortSlice sched service proto name = some (cname, res, none)) :
    List.Chain' (fun a b : SRV =>
      a.Priority ≤ b.Priority ∧ (a.Priority = b.Priority → a.Weight ≤ b.Weight)) res := by
  unfold Resolver.LookupSRV at h
  cases hq : r.Query sched (srvTarget service proto name) TypeSRV with
  | none => simp [hq] at h
  | some run =>
    cases he : run.err with
    | some e => simp [hq, he] at h
    | none =>
      simp only [hq, he, Option.some.injEq, Prod.mk.injEq, and_true] at h
      rw [← h.2]
      exact (decodeSRV_pairwise sortSlice hsort run.datas).chain'

/-- Witness for `LookupSRV_sorted`: four SRV entries, one of them malformed,
sorted by insertion. -/
theorem LookupSRV_sorted_witness :
    List.Chain' (fun a b : SRV =>
        a.Priority ≤ b.Priority ∧ (a.Priority = b.Priority → a.Weight ≤ b.Weight))
      [⟨str "c.example.", 443, 1, 9⟩, ⟨str "b.example.", 80, 10, 1⟩,
       ⟨str "a.example.", 80, 10, 5⟩] :=
  LookupSRV_sorted (fun _ less x => insertionSort less x) insertionSort_contract
    oneProvider [.recv (.ok respSRV)] (str "ldap") (str "tcp")
    (str "example.com") (str "_ldap._tcp.example.com.")
    [⟨str "c.example.", 443, 1, 9⟩, ⟨str "b.example.", 80, 10, 1⟩,
     ⟨str "a.example.", 80, 10, 5⟩] (by decide)

/-- C10: the records that `LookupMX` returns after a successful query are
non-decreasing in preference, for every algorithm of `sort.Slice` that meets
its contract; when the query returns the data `10 mail1.example`,
`5 mail2.example`, `LookupMX` returns exactly `(5, mail2.example)`,
`(10, mail1.example)` and no error. -/
theorem LookupMX_sorted (sortSlice : SliceSorter) (hsort : SliceContract sortSlice) :
    (∀ (r : Resolver) (sched : List event) (name : GoString) (res : List MX),
      r.LookupMX sortSlice sched name = some (res, none) →
      List.Chain' (fun a b : MX => a.Pref ≤ b.Pref) res) ∧
    (∀ (r : Resolver) (sched : List event) (name : GoString) (run : QueryRun),
      r.Query sched name TypeTXT = some run → run.err = none →
      run.datas = [str "10 mail1.example", str "5 mail2.example"] →
      r.LookupMX sortSlice sched name
        = some ([⟨str "mail2.example", 5⟩, ⟨str "mail1.example", 10⟩], none)) ∧
    oneProvider.LookupMX sortSlice [.recv (.ok respMX)] (str "name.example")
      = some ([⟨str "mail2.example", 5⟩, ⟨str "mail1.example", 10⟩], none) := by
  have hex : decodeMX sortSlice [str "10 mail1.example", str "5 mail2.example"]
      = [⟨str "mail2.example", 5⟩, ⟨str "mail1.example", 10⟩] :=
    decodeMX_eval sortSlice hsort _ [⟨str "mail1.example", 10⟩, ⟨str "mail2.example", 5⟩] _
      (by decide) (by decide) (by decide)
  refine ⟨?_, ?_, ?_⟩
  · intro r sched name res h
    unfold Resolver.LookupMX at h
    cases hq : r.Query sched name TypeTXT with
    | none => simp [hq] at h
    | some run =>
      cases he : run.err with
      | some e => simp [hq, he] at h
      | none =>
        simp only [hq, he, Option.some.injEq, Prod.mk.injEq, and_true] at h
        rw [← h]
        exact (decodeMX_pairwise sortSlice hsort run.datas).chain'
  · intro r sched name run hq he hd
    rw [LookupMX_eq sortSlice r sched name run hq he, hd, hex]
  · have hq : oneProvider.Query [.recv (.ok respMX)] (str "name.example") TypeTXT
        = some ⟨oneProvider.Providers, 1, [str "10 mail1.example", str "5 mail2.example"],
            none⟩ := by decide
    rw [LookupMX_eq sortSlice _ _ _ _ hq rfl, hex]

/-- Witness for `LookupMX_sorted`: the general part applied to the TXT response
with the two entries in MX presentation format, sorted by insertion. -/
theorem LookupMX_sorted_witness :
    List.Chain' (fun a b : MX => a.Pref ≤ b.Pref)
      [⟨str "mail2.example", 5⟩, ⟨str "mail1.example", 10⟩] :=
  (LookupMX_sorted (fun _ less x => insertionSort less x) insertionSort_contract).1
    oneProvider [.recv (.ok respMX)] (str "name.example")
    [⟨str "mail2.example", 5⟩, ⟨str "mail1.example", 10⟩] (by decide)

/-! ## Malformed entries -/

theorem parseSRV_eq (data : GoString) :
    parseSRV data = if srvWellFormed data then some (srvRecordOf data) else none := by
  unfold parseSRV srvWellFormed srvRecordOf
  match hf : Fields data with
  | [] => simp
  | [_] => simp
  | [_, _] => simp
  | [_, _, _] => simp
  | v0 :: v1 :: v2 :: v3 :: rest =>
    cases h0 : Atoi v0 with
    | none => simp [h0]
    | some p =>
      cases h1 : Atoi v1 with
      | none => simp [h0, h1]
      | some w =>
        cases h2 : Atoi v2 with
        | none => simp [h0, h1, h2]
        | some q => simp [h0, h1, h2]

theorem parseMX_eq (data : GoString) :
    parseMX data = if mxWellFormed data then some (mxRecordOf data) else none := by
  unfold parseMX mxWellFormed mxRecordOf
  match hf : Fields data with
  | [] => simp
  | [_] => simp
  | v0 :: v1 :: rest =>
    cases h0 : Atoi v0 with
    | none => simp [h0]
    | some p => simp [h0]

theorem filterMap_eq_map_filter {α β : Type} (p : α → Bool) (f : α → β)
    (g : α → Option β)
    (hg : ∀ a, g a = if p a then some (f a) else none) (l : List α) :
    l.filterMap g = (l.filter p).map f := by
  induction l with
  | nil => rfl
  | cons a l ih =>
    cases hp : p a with
    | false => simp [List.filterMap_cons, hg a, hp, ih]
    | true => simp [List.filterMap_cons, hg a, hp, ih]

theorem decodeSRV_perm (sortSlice : SliceSorter) (hsort : SliceContract sortSlice)
    (datas : List GoString) :
    (decodeSRV sortSlice datas).Perm ((datas.filter srvWellFormed).map srvRecordOf) := by
  unfold decodeSRV
  rw [← filterMap_eq_map_filter srvWellFormed srvRecordOf parseSRV parseSRV_eq]
  exact (hsort SRV srvLess _).1

theorem decodeMX_perm (sortSlice : SliceSorter) (hsort : SliceContract sortSlice)
    (datas : List GoString) :
    (decodeMX sortSlice datas).Perm ((datas.filter mxWellFormed).map mxRecordOf) := by
  unfold decodeMX
  rw [← filterMap_eq_map_filter mxWellFormed mxRecordOf parseMX parseMX_eq]
  exact (hsort MX mxLess _).1

theorem decodeSRV_respSRV (sortSlice : SliceSorter) (hsort : SliceContract sortSlice) :
    decodeSRV sortSlice [str "10 5 80 a.example.", str "10 1 80 b.example.", str "a b c d",
        str "1 9 443 c.example."]
      = [⟨str "c.example.", 443, 1, 9⟩, ⟨str "b.example.", 80, 10, 1⟩,
         ⟨str "a.example.", 80, 10, 5⟩] :=
  decodeSRV_eval sortSlice hsort _
    [⟨str "a.example.", 80, 10, 5⟩, ⟨str "b.example.", 80, 10, 1⟩,
     ⟨str "c.example.", 443, 1, 9⟩] _ (by decide) (by decide) (by decide)

/-- C11: after a successful query `LookupSRV` and `LookupMX` return a nil error,
and their records are a permutation of the records of exactly the well-formed
data strings (at least 4 fields with three integers for SRV, at least 2 fields
with one integer for MX); every other string, such as `a b c d`, yields no
record.  `sort.Slice` is any function meeting its contract. -/
theorem decoders_drop_malformed (sortSlice : SliceSorter) (hsort : SliceContract sortSlice)
    (r : Resolver) (sched : List event) (service proto name : GoString) :
    (∀ run, r.Query sched (srvTarget service proto name) TypeSRV = some run → run.err = none →
      ∃ res, r.LookupSRV sortSlice sched service proto name
          = some (srvTarget service proto name ++ str ".", res, none) ∧
        res.Perm ((run.datas.filter srvWellFormed).map srvRecordOf)) ∧
    (∀ run, r.Query sched name TypeTXT = some run → run.err = none →
      ∃ res, r.LookupMX sortSlice sched name = some (res, none) ∧
        res.Perm ((run.datas.filter mxWellFormed).map mxRecordOf)) ∧
    (∀ data, srvWellFormed data = false → parseSRV data = none) ∧
    (∀ data, mxWellFormed data = false → parseMX data = none) ∧
    srvWellFormed (str "a b c d") = false ∧
    oneProvider.LookupSRV sortSlice [.recv (.ok respSRV)] [] [] (str "name.example")
      = some (str "name.example.",
          [⟨str "c.example.", 443, 1, 9⟩, ⟨str "b.example.", 80, 10, 1⟩,
           ⟨str "a.example.", 80, 10, 5⟩], none) := by
  refine ⟨?_, ?_, ?_, ?_, by decide, ?_⟩
  · intro run hq he
    exact ⟨decodeSRV sortSlice run.datas,
      LookupSRV_eq sortSlice r sched service proto name run hq he,
      decodeSRV_perm sortSlice hsort run.datas⟩
  · intro run hq he
    exact ⟨decodeMX sortSlice run.datas, LookupMX_eq sortSlice r sched name run hq he,
      decodeMX_perm sortSlice hsort run.datas⟩
  · intro data h
    rw [parseSRV_eq, h]
    rfl
  · intro data h
    rw [parseMX_eq, h]
    rfl
  · have hq : oneProvider.Query [.recv (.ok respSRV)] (srvTarget [] [] (str "name.example"))
        TypeSRV = some ⟨oneProvider.Providers, 1,
          [str "10 5 80 a.example.", str "10 1 80 b.example.", str "a b c d",
           str "1 9 443 c.example."], none⟩ := by decide
    have ht : srvTarget [] [] (str "name.example") ++ str "." = str "name.example." := by
      decide
    rw [LookupSRV_eq sortSlice _ _ _ _ _ _ hq rfl, ht, decodeSRV_respSRV sortSlice hsort]

/-- Witness for `decoders_drop_malformed`: the SRV response with one malformed
entry among four, sorted by insertion. -/
theorem decoders_drop_malformed_witness :
    ∃ res, oneProvider.LookupSRV (fun _ less x => insertionSort less x)
        [.recv (.ok respSRV)] [] [] (str "name.example")
        = some (srvTarget [] [] (str "name.example") ++ str ".", res, none) ∧
      res.Perm (((QueryRun.mk oneProvider.Providers 1
        [str "10 5 80 a.example.", str "10 1 80 b.example.", str "a b c d",
         str "1 9 443 c.example."] none).datas.filter srvWellFormed).map srvRecordOf) :=
  (decoders_drop_malformed (fun _ less x => insertionSort less x) insertionSort_contract
    oneProvider [.recv (.ok respSRV)] [] [] (str "name.example")).1
    ⟨oneProvider.Providers, 1,
      [str "10 5 80 a.example.", str "10 1 80 b.example.", str "a b c d",
       str "1 9 443 c.example."], none⟩ (by decide) rfl

/-! ## The name queried by `LookupSRV` -/

/-- C12: `LookupSRV` queries type SRV for `name` itself when `service` and
`proto` are both empty and for `_service._proto.name` otherwise: its outcome is
that of `Query` on that domain, and a cancelled query reports that domain and
type SRV.  On success the first return value is the queried domain followed by
a dot, on failure it is the empty string.  This holds whatever `sort.Slice`
does. -/
theorem LookupSRV_target (sortSlice : SliceSorter) (r : Resolver) (sched : List event)
    (service proto name : GoString) :
    (service = [] ∧ proto = [] → srvTarget service proto name = name) ∧
    (¬ (service = [] ∧ proto = []) →
      srvTarget service proto name
        = str "_" ++ service ++ str "._" ++ proto ++ str "." ++ name) ∧
    (r.Query sched (srvTarget service proto name) TypeSRV = none →
      r.LookupSRV sortSlice sched service proto name = none) ∧
    (∀ run, r.Query sched (srvTarget service proto name) TypeSRV = some run →
      (run.err = none → ∃ res, r.LookupSRV sortSlice sched service proto name
        = some (srvTarget service proto name ++ str ".", res, none)) ∧
      (∀ e, run.err = some e →
        r.LookupSRV sortSlice sched service proto name = some ([], [], some e))) ∧
    (∀ ctxErr rest, r.Providers ≠ [] →
      r.LookupSRV sortSlice (.done ctxErr :: rest) service proto name
        = some ([], [], some (.dohError ctxErr (srvTarget service proto name) TypeSRV))) ∧
    srvTarget [] [] (str "name.example") = str "name.example" ∧
    srvTarget (str "ldap") (str "tcp") (str "example.com") = str "_ldap._tcp.example.com" ∧
    srvTarget (str "ldap") [] (str "example.com") = str "_ldap._.example.com" ∧
    srvTarget [] (str "tcp") (str "example.com") = str "_._tcp.example.com" ∧
    (SliceContract sortSlice →
      oneProvider.LookupSRV sortSlice [.recv (.ok respSRVbad)] [] [] (str "name.example")
        = some (str "name.example.", [], none)) ∧
    oneProvider.LookupSRV (fun _ less x => insertionSort less x) [.recv (.ok respSRVbad)] [] []
        (str "name.example") = some (str "name.example.", [], none) ∧
    (oneProvider.LookupSRV sortSlice [.recv (.ok respSRV)] (str "ldap") (str "tcp")
        (str "example.com")).map
      (fun out => out.1) = some (str "_ldap._tcp.example.com.") := by
  refine ⟨?_, ?_, ?_, ?_, ?_, by decide, by decide, by decide, by decide, ?_, by decide, ?_⟩
  · intro h
    simp [srvTarget, h]
  · intro h
    simp [srvTarget, h]
  · intro hq
    simp [Resolver.LookupSRV, hq]
  · intro run hq
    refine ⟨?_, ?_⟩
    · intro he
      exact ⟨decodeSRV sortSlice run.datas, by simp [Resolver.LookupSRV, hq, he]⟩
    · intro e he
      simp [Resolver.LookupSRV, hq, he]
  · intro ctxErr rest hne
    have hp : ¬ r.Providers.length = 0 := by
      intro h0; exact hne (List.length_eq_zero.mp h0)
    obtain ⟨n, hn⟩ := Nat.exists_eq_succ_of_ne_zero hp
    simp [Resolver.LookupSRV, Resolver.Query, hp, hn, queryLoop]
  · intro hsort
    have hq : oneProvider.Query [.recv (.ok respSRVbad)]
        (srvTarget [] [] (str "name.example")) TypeSRV
        = some ⟨oneProvider.Providers, 1, [str "a b c d"], none⟩ := by decide
    have ht : srvTarget [] [] (str "name.example") ++ str "." = str "name.example." := by
      decide
    have h1 : decodeSRV sortSlice [str "a b c d"] = [] := by
      unfold decodeSRV
      rw [sorted_eq_nil_iff sortSlice hsort]
      decide
    rw [LookupSRV_eq sortSlice _ _ _ _ _ _ hq rfl, ht, h1]
  · have hq : oneProvider.Query [.recv (.ok respSRV)]
        (srvTarget (str "ldap") (str "tcp") (str "example.com")) TypeSRV
        = some ⟨oneProvider.Providers, 1,
          [str "10 5 80 a.example.", str "10 1 80 b.example.", str "a b c d",
           str "1 9 443 c.example."], none⟩ := by decide
    have ht : srvTarget (str "ldap") (str "tcp") (str "example.com") ++ str "."
        = str "_ldap._tcp.example.com." := by decide
    rw [LookupSRV_eq sortSlice _ _ _ _ _ _ hq rfl]
    simp only [Option.map_some', ht]

/-- Witness for `LookupSRV_target`: a cancelled lookup of `_ldap._tcp.example.com`. -/
theorem LookupSRV_target_witness :
    twoProviders.LookupSRV (fun _ less x => insertionSort less x)
        [.done (.errorString (str "context canceled"))] (str "ldap")
        (str "tcp") (str "example.com")
      = some ([], [], some (.dohError (.errorString (str "context canceled"))
          (srvTarget (str "ldap") (str "tcp") (str "example.com")) TypeSRV)) :=
  (LookupSRV_target (fun _ less x => insertionSort less x) twoProviders []
    (str "ldap") (str "tcp") (str "example.com")).2.2.2.2.1
    (.errorString (str "context canceled")) [] (by decide)

/-! ## IP lookups -/

theorem LookupA_eq (ParseIP : GoString → IP) (r : Resolver) (sched : List event)
    (name : GoString) (run : QueryRun) (hq : r.Query sched name TypeA = some run) :
    r.LookupA ParseIP sched name = some (parseIPs ParseIP run.datas run.err) := by
  simp [Resolver.LookupA, hq]

theorem LookupAAAA_eq (ParseIP : GoString → IP) (r : Resolver) (sched : List event)
    (name : GoString) (run : QueryRun) (hq : r.Query sched name TypeAAAA = some run) :
    r.LookupAAAA ParseIP sched name = some (parseIPs ParseIP run.datas run.err) := by
  simp [Resolver.LookupAAAA, hq]

theorem ParseIP_dotted (parseIPv6 : GoString → IP) :
    ParseIP parseIPv6 (str "2.2.2.2") = IPv4 2 2 2 2 := by
  have h1 : (str "2.2.2.2").find? (fun c => c == 0x2E || c == 0x3A || c == 0x25)
      = some 0x2E := by decide
  have h2 : parseIPv4Fields (str "2.2.2.2") [] 0 0 = some [2, 2, 2, 2] := by decide
  simp only [ParseIP, h1, h2, if_true]

theorem ParseIP_word (parseIPv6 : GoString → IP) :
    ParseIP parseIPv6 (str "dohtest") = [] := by
  have h1 : (str "dohtest").find? (fun c => c == 0x2E || c == 0x3A || c == 0x25) = none := by
    decide
  simp only [ParseIP, h1]

/-- C13: for every pair of outcomes of the two sub-lookups, `LookupIP` returns
an error exactly when both fail (the error of `LookupA`, with no data);
otherwise it returns a nil error and the IPv4 results of a successful
`LookupA` followed by the IPv6 results of a successful `LookupAAAA`. -/
theorem LookupIP_union (ParseIP : GoString → IP) (r : Resolver)
    (schedA schedAAAA : List event) (name : GoString) (ipv4Res ipv6Res : List IP)
    (ipv4Err ipv6Err : Option error)
    (hA : r.LookupA ParseIP schedA name = some (ipv4Res, ipv4Err))
    (hB : r.LookupAAAA ParseIP schedAAAA name = some (ipv6Res, ipv6Err)) :
    ∃ res err, r.LookupIP ParseIP schedA schedAAAA name = some (res, err) ∧
      (err ≠ none ↔ ipv4Err ≠ none ∧ ipv6Err ≠ none) ∧
      (err ≠ none → res = [] ∧ err = ipv4Err) ∧
      (err = none →
        res = (if ipv4Err = none then ipv4Res else []) ++
              (if ipv6Err = none then ipv6Res else [])) ∧
      (ipv4Err = none → ipv6Err ≠ none → res = ipv4Res ∧ err = none) := by
  cases ipv4Err with
  | none =>
    have h4 := LookupA_ok_ne_nil ParseIP r schedA name ipv4Res hA
    have hl4 : 0 < ipv4Res.length := List.length_pos.mpr h4
    cases ipv6Err with
    | none =>
      have hl : (ipv4Res ++ ipv6Res).length > 0 := by simp; omega
      refine ⟨ipv4Res ++ ipv6Res, none, ?_, by simp, by simp, by simp, by simp⟩
      simp only [Resolver.LookupIP, hA, hB, hl, if_true]
    | some e6 =>
      refine ⟨ipv4Res, none, ?_, by simp, by simp, by simp, by simp⟩
      simp only [Resolver.LookupIP, hA, hB, hl4, gt_iff_lt, if_true]
  | some e4 =>
    cases ipv6Err with
    | none =>
      have h6 := LookupAAAA_ok_ne_nil ParseIP r schedAAAA name ipv6Res hB
      have hl6 : 0 < ipv6Res.length := List.length_pos.mpr h6
      refine ⟨ipv6Res, none, ?_, by simp, by simp, by simp, by simp⟩
      simp only [Resolver.LookupIP, hA, hB, List.nil_append, hl6, gt_iff_lt, if_true]
    | some e6 =>
      refine ⟨[], some e4, ?_, by simp, by simp, by simp, by simp⟩
      simp [Resolver.LookupIP, hA, hB]

/-- Witness for `LookupIP_union`: the A lookup succeeds with `2.2.2.2`, the
AAAA lookup finds no answer. -/
theorem LookupIP_union_witness :
    ∃ res err, oneProvider.LookupIP (ParseIP (fun _ => [])) [.recv (.ok respA)]
        [.recv (.ok respA)] (str "dohtest.poohvpn.com") = some (res, err) ∧
      (err ≠ none ↔ (none : Option error) ≠ none ∧
        some (error.dohError .ErrNoAnswer (str "dohtest.poohvpn.com") TypeAAAA) ≠ none) ∧
      (err ≠ none → res = [] ∧ err = none) ∧
      (err = none →
        res = (if (none : Option error) = none then [IPv4 2 2 2 2] else []) ++
              (if some (error.dohError .ErrNoAnswer (str "dohtest.poohvpn.com") TypeAAAA) = none
                then [] else [])) ∧
      ((none : Option error) = none →
        some (error.dohError .ErrNoAnswer (str "dohtest.poohvpn.com") TypeAAAA) ≠ none →
        res = [IPv4 2 2 2 2] ∧ err = none) :=
  LookupIP_union (ParseIP (fun _ => [])) oneProvider [.recv (.ok respA)] [.recv (.ok respA)]
    (str "dohtest.poohvpn.com") [IPv4 2 2 2 2] [] none
    (some (.dohError .ErrNoAnswer (str "dohtest.poohvpn.com") TypeAAAA)) (by decide) (by decide)

/-- C14: after a successful A or AAAA query the decoder returns a nil error and
the list of the parses of the data strings, same length and order, each
element being what `net.ParseIP` gives for the string (the nil IP when it is
not an IP literal); a failed query is passed through with a nil list.  The A
record `2.2.2.2` gives the single IP `2.2.2.2` in its 16-byte form, the bytes of
`net.IPv4(2, 2, 2, 2)`. -/
theorem LookupA_parse (ParseIP6 : GoString → IP) (parse : GoString → IP) (r : Resolver)
    (sched : List event) (name : GoString) :
    (∀ run, r.Query sched name TypeA = some run → run.err = none →
      ∃ res, r.LookupA parse sched name = some (res, none) ∧
        res.length = run.datas.length ∧ ∀ i : Nat, res[i]? = (run.datas[i]?).map parse) ∧
    (∀ run, r.Query sched name TypeAAAA = some run → run.err = none →
      ∃ res, r.LookupAAAA parse sched name = some (res, none) ∧
        res.length = run.datas.length ∧ ∀ i : Nat, res[i]? = (run.datas[i]?).map parse) ∧
    (∀ run e, r.Query sched name TypeA = some run → run.err = some e →
      r.LookupA parse sched name = some ([], some e)) ∧
    (∀ run e, r.Query sched name TypeAAAA = some run → run.err = some e →
      r.LookupAAAA parse sched name = some ([], some e)) ∧
    ParseIP ParseIP6 (str "2.2.2.2") = [0, 0, 0, 0, 0, 0, 0, 0, 0, 0, 255, 255, 2, 2, 2, 2] ∧
    ParseIP ParseIP6 [0x32, 0x2E, 0x32, 0x2E, 0x32, 0x2E, 0x32]
      = [0, 0, 0, 0, 0, 0, 0, 0, 0, 0, 255, 255, 2, 2, 2, 2] ∧
    ParseIP ParseIP6 (str "dohtest") = [] ∧
    oneProvider.LookupA (ParseIP ParseIP6) [.recv (.ok respA)] (str "dohtest.poohvpn.com")
      = some ([[0, 0, 0, 0, 0, 0, 0, 0, 0, 0, 255, 255, 2, 2, 2, 2]], none) ∧
    oneProvider.LookupA (ParseIP ParseIP6) [.recv (.ok respAbad)] (str "dohtest.poohvpn.com")
      = some ([[]], none) := by
  refine ⟨?_, ?_, ?_, ?_, ParseIP_dotted ParseIP6, ParseIP_dotted ParseIP6,
    ParseIP_word ParseIP6, ?_, ?_⟩
  · intro run hq he
    refine ⟨run.datas.map parse, ?_, by simp, by simp⟩
    rw [LookupA_eq parse r sched name run hq, he]
    rfl
  · intro run hq he
    refine ⟨run.datas.map parse, ?_, by simp, by simp⟩
    rw [LookupAAAA_eq parse r sched name run hq, he]
    rfl
  · intro run e hq he
    rw [LookupA_eq parse r sched name run hq, he]
    rfl
  · intro run e hq he
    rw [LookupAAAA_eq parse r sched name run hq, he]
    rfl
  · have hq : oneProvider.Query [.recv (.ok respA)] (str "dohtest.poohvpn.com") TypeA
        = some ⟨oneProvider.Providers, 1, [str "2.2.2.2"], none⟩ := by decide
    rw [LookupA_eq _ _ _ _ _ hq]
    simp only [parseIPs, List.map_cons, List.map_nil, ParseIP_dotted ParseIP6]
    rfl
  · have hq : oneProvider.Query [.recv (.ok respAbad)] (str "dohtest.poohvpn.com") TypeA
        = some ⟨oneProvider.Providers, 1, [str "dohtest"], none⟩ := by decide
    rw [LookupA_eq _ _ _ _ _ hq]
    simp [parseIPs, ParseIP_word ParseIP6]

/-- Witness for `LookupA_parse`: the general part on the A record `2.2.2.2`;
the single element of the result is the 16-byte form of the address. -/
theorem LookupA_parse_witness :
    ∃ res, oneProvider.LookupA (ParseIP (fun _ => [])) [.recv (.ok respA)]
        (str "dohtest.poohvpn.com") = some (res, none) ∧
      res.length = 1 ∧
      res[0]? = some [0, 0, 0, 0, 0, 0, 0, 0, 0, 0, 255, 255, 2, 2, 2, 2] := by
  obtain ⟨res, h1, h2, h3⟩ :=
    (LookupA_parse (fun _ => []) (ParseIP (fun _ => [])) oneProvider [.recv (.ok respA)]
      (str "dohtest.poohvpn.com")).1
      ⟨oneProvider.Providers, 1, [str "2.2.2.2"], none⟩ (by decide) rfl
  refine ⟨res, h1, h2, ?_⟩
  rw [h3 0]
  decide

/-! ## Record types of the decoders -/

theorem Query_ok_source (r : Resolver) (sched : List event) (domain : GoString)
    (t : dnsType) (run : QueryRun) (h : r.Query sched domain t = some run)
    (herr : run.err = none) :
    ∃ resp, event.recv (.ok resp) ∈ sched ∧ resp.Status = 0 ∧
      run.datas = (resp.Answer.filter (usable t)).map (fun a => unquote a.Data) := by
  unfold Resolver.Query at h
  by_cases hp : r.Providers.length = 0
  · simp only [hp, if_true, Option.some.injEq] at h
    subst h
    simp at herr
  · simp only [hp, if_false] at h
    obtain ⟨resp, hm, hst, hd, _⟩ :=
      queryLoop_success r.Providers domain t _ sched [] 0 run h herr
    exact ⟨resp, hm, hst, by rw [hd, collectDatas_eq_filter_map]⟩

theorem Query_done_first (r : Resolver) (ctxErr : error) (rest : List event)
    (domain : GoString) (t : dnsType) (h : r.Providers ≠ []) :
    r.Query (.done ctxErr :: rest) domain t
      = some ⟨r.Providers, 1, [], some (.dohError ctxErr domain t)⟩ := by
  have hp : ¬ r.Providers.length = 0 := by
    intro h0; exact h (List.length_eq_zero.mp h0)
  obtain ⟨n, hn⟩ := Nat.exists_eq_succ_of_ne_zero hp
  simp [Resolver.Query, hp, hn, queryLoop]

/-- C15: the record type each decoder hands to `Query`, seen in the error of a
cancelled lookup: A (1) for `LookupA`, AAAA (28) for `LookupAAAA`, TXT (16) for
`LookupTXT`, PTR (12) for `LookupAddr`, SRV (33) for `LookupSRV`, and TXT (16),
not CNAME (5), NS (2) or MX (15), for `LookupCNAME`, `LookupNS` and `LookupMX`.
Hence what these three return on success comes from the entries of type TXT
with nonzero TTL of one status-0 response, whatever `sort.Slice` does. -/
theorem decoders_record_type (sortSlice : SliceSorter) (ParseIP : GoString → IP)
    (r : Resolver) (ctxErr : error)
    (rest sched : List event) (name service proto : GoString) (h : r.Providers ≠ []) :
    r.LookupA ParseIP (.done ctxErr :: rest) name
      = some ([], some (.dohError ctxErr name 1)) ∧
    r.LookupAAAA ParseIP (.done ctxErr :: rest) name
      = some ([], some (.dohError ctxErr name 28)) ∧
    r.LookupTXT (.done ctxErr :: rest) name = some ([], some (.dohError ctxErr name 16)) ∧
    r.LookupAddr (.done ctxErr :: rest) name = some ([], some (.dohError ctxErr name 12)) ∧
    r.LookupSRV sortSlice (.done ctxErr :: rest) service proto name
      = some ([], [], some (.dohError ctxErr (srvTarget service proto name) 33)) ∧
    r.LookupCNAME (.done ctxErr :: rest) name = some ([], some (.dohError ctxErr name 16)) ∧
    r.LookupNS (.done ctxErr :: rest) name = some ([], some (.dohError ctxErr name 16)) ∧
    r.LookupMX sortSlice (.done ctxErr :: rest) name
      = some ([], some (.dohError ctxErr name 16)) ∧
    (TypeA = 1 ∧ TypeAAAA = 28 ∧ TypeTXT = 16 ∧ TypePTR = 12 ∧ TypeSRV = 33 ∧
      TypeCNAME = 5 ∧ TypeNS = 2 ∧ TypeMX = 15) ∧
    (∀ cname, r.LookupCNAME sched name = some (cname, none) →
      ∃ resp a, event.recv (.ok resp) ∈ sched ∧ resp.Status = 0 ∧ a ∈ resp.Answer ∧
        a.Type_ = 16 ∧ a.TTL ≠ 0 ∧ cname = unquote a.Data) ∧
    (∀ res, r.LookupNS sched name = some (res, none) →
      ∃ resp, event.recv (.ok resp) ∈ sched ∧ resp.Status = 0 ∧
        res = (resp.Answer.filter (fun a => decide (a.Type_ = 16 ∧ a.TTL ≠ 0))).map
          (fun a => NS.mk (unquote a.Data))) ∧
    (∀ res, r.LookupMX sortSlice sched name = some (res, none) →
      ∃ resp, event.recv (.ok resp) ∈ sched ∧ resp.Status = 0 ∧
        res = decodeMX sortSlice
          ((resp.Answer.filter (fun a => decide (a.Type_ = 16 ∧ a.TTL ≠ 0))).map
            (fun a => unquote a.Data))) ∧
    oneProvider.LookupCNAME [.recv (.ok respTyped)] (str "name.example")
      = some ([], some (.dohError .ErrNoAnswer (str "name.example") 16)) ∧
    oneProvider.LookupNS [.recv (.ok respTyped)] (str "name.example")
      = some ([], some (.dohError .ErrNoAnswer (str "name.example") 16)) ∧
    oneProvider.LookupMX sortSlice [.recv (.ok respTyped)] (str "name.example")
      = some ([], some (.dohError .ErrNoAnswer (str "name.example") 16)) := by
  have hf : (fun a : answer => decide (a.Type_ = 16 ∧ a.TTL ≠ 0)) = usable TypeTXT := by
    funext a
    simp [usable]
  have hqt : oneProvider.Query [.recv (.ok respTyped)] (str "name.example") TypeTXT
      = some ⟨oneProvider.Providers, 1, [],
          some (.dohError .ErrNoAnswer (str "name.example") 16)⟩ := by decide
  refine ⟨?_, ?_, ?_, ?_, ?_, ?_, ?_, ?_, by decide, ?_, ?_, ?_, by decide, by decide,
    by simp [Resolver.LookupMX, hqt]⟩
  · simp [Resolver.LookupA, Query_done_first r ctxErr rest name TypeA h, parseIPs]
  · simp [Resolver.LookupAAAA, Query_done_first r ctxErr rest name TypeAAAA h, parseIPs]
  · simp [Resolver.LookupTXT, Query_done_first r ctxErr rest name TypeTXT h]
  · simp [Resolver.LookupAddr, Query_done_first r ctxErr rest name TypePTR h]
  · simp [Resolver.LookupSRV, Query_done_first r ctxErr rest _ TypeSRV h]
  · simp [Resolver.LookupCNAME, Query_done_first r ctxErr rest name TypeTXT h]
  · simp [Resolver.LookupNS, Query_done_first r ctxErr rest name TypeTXT h]
  · simp [Resolver.LookupMX, Query_done_first r ctxErr rest name TypeTXT h]
  · intro cname hc
    unfold Resolver.LookupCNAME at hc
    cases hq : r.Query sched name TypeTXT with
    | none => simp [hq] at hc
    | some run =>
      cases he : run.err with
      | some e => simp [hq, he] at hc
      | none =>
        obtain ⟨resp, hm, hst, hd⟩ := Query_ok_source r sched name TypeTXT run hq he
        cases hdd : run.datas with
        | nil => simp [hq, he, hdd] at hc
        | cons first tl =>
          simp only [hq, he, hdd, Option.some.injEq, Prod.mk.injEq, and_true] at hc
          have hmem : cname ∈ (resp.Answer.filter (usable TypeTXT)).map
              (fun a => unquote a.Data) := by
            rw [← hd, hdd, hc]
            exact List.mem_cons_self _ _
          obtain ⟨a, ha, hca⟩ := List.mem_map.mp hmem
          obtain ⟨ha1, ha2⟩ := List.mem_filter.mp ha
          simp only [usable, Bool.and_eq_true, decide_eq_true_eq] at ha2
          exact ⟨resp, a, hm, hst, ha1, ha2.1, ha2.2, hca.symm⟩
  · intro res hc
    unfold Resolver.LookupNS at hc
    cases hq : r.Query sched name TypeTXT with
    | none => simp [hq] at hc
    | some run =>
      cases he : run.err with
      | some e => simp [hq, he] at hc
      | none =>
        obtain ⟨resp, hm, hst, hd⟩ := Query_ok_source r sched name TypeTXT run hq he
        simp only [hq, he, Option.some.injEq, Prod.mk.injEq, and_true] at hc
        refine ⟨resp, hm, hst, ?_⟩
        rw [← hc, hd, hf, List.map_map]
        rfl
  · intro res hc
    unfold Resolver.LookupMX at hc
    cases hq : r.Query sched name TypeTXT with
    | none => simp [hq] at hc
    | some run =>
      cases he : run.err with
      | some e => simp [hq, he] at hc
      | none =>
        obtain ⟨resp, hm, hst, hd⟩ := Query_ok_source r sched name TypeTXT run hq he
        simp only [hq, he, Option.some.injEq, Prod.mk.injEq, and_true] at hc
        refine ⟨resp, hm, hst, ?_⟩
        rw [← hc, hd, hf]

/-- Witness for `decoders_record_type`: a cancelled `LookupMX` reports type 16. -/
theorem decoders_record_type_witness :
    twoProviders.LookupMX (fun _ less x => insertionSort less x)
        [.done (.errorString (str "context canceled"))] (str "name.example")
      = some ([], some (.dohError (.errorString (str "context canceled"))
          (str "name.example") 16)) :=
  (decoders_record_type (fun _ less x => insertionSort less x) (fun _ => []) twoProviders
    (.errorString (str "context canceled")) [] [] (str "name.example") [] []
    (by decide)).2.2.2.2.2.2.2.1

/-- C16: `LookupCNAME` returns whenever `Query` returns: with the error of a
failed query and the empty string, or with a nil error and the first string of
the query result, which exists because a successful result is never empty. -/
theorem LookupCNAME_total (r : Resolver) (sched : List event) (name : GoString)
    (run : QueryRun) (hq : r.Query sched name TypeTXT = some run) :
    (∀ e, run.err = some e → r.LookupCNAME sched name = some ([], some e)) ∧
    (run.err = none → ∃ first tl, run.datas = first :: tl ∧
      r.LookupCNAME sched name = some (first, none)) ∧
    r.LookupCNAME sched name ≠ none := by
  cases he : run.err with
  | some e =>
    refine ⟨?_, ?_, ?_⟩
    · intro e2 h2
      cases h2
      simp [Resolver.LookupCNAME, hq, he]
    · intro h2
      cases h2
    · simp [Resolver.LookupCNAME, hq, he]
  | none =>
    have hne := Query_ok_datas_ne_nil r sched name TypeTXT run hq he
    cases hd : run.datas with
    | nil => exact absurd hd hne
    | cons first tl =>
      refine ⟨?_, ?_, ?_⟩
      · intro e2 h2
        cases h2
      · intro _
        exact ⟨first, tl, rfl, by simp [Resolver.LookupCNAME, hq, he, hd]⟩
      · simp [Resolver.LookupCNAME, hq, he, hd]

/-- Witness for `LookupCNAME_total`: the quoted TXT entry `dohtest` is the first
string. -/
theorem LookupCNAME_total_witness :
    oneProvider.LookupCNAME [.recv (.ok respTXT)] (str "cname.dohtest.poohvpn.com")
      = some (str "dohtest", none) := by
  obtain ⟨first, tl, hd, hc⟩ :=
    (LookupCNAME_total oneProvider [.recv (.ok respTXT)] (str "cname.dohtest.poohvpn.com")
      ⟨oneProvider.Providers, 1, [str "dohtest", str "plain"], none⟩ (by decide)).2.1 rfl
  simp only [List.cons.injEq] at hd
  rw [hc, ← hd.1]

/-! ## Skipped providers and the deciding response -/

/-- C17: when every provider reports (no cancellation) and every result is a
failure or a response with non-zero status, `Query` returns no data and the
`dohError` for the queried domain and type whose inner error has as text the
messages of the failed providers, in arrival order, with the two bytes `", "`
between consecutive messages (empty when every provider answered with a
non-zero status); its `Error()` text is
`DoH: query domain <domain> on type <type name>: <joined text>`.  For the
failures `x` and `y` around a SERVFAIL response, domain `d` and type A the
text is `DoH: query domain d on type A: x, y`, byte for byte. -/
theorem Query_all_skipped (TypeToString : Nat → Option GoString) (r : Resolver)
    (rs : List result) (domain : GoString) (t : dnsType)
    (hne : r.Providers ≠ []) (hlen : rs.length = r.Providers.length)
    (hall : ∀ x ∈ rs,
      (∃ msg, x = .failed msg) ∨ (∃ resp, x = .ok resp ∧ resp.Status ≠ 0)) :
    (∃ run e, r.Query (arrivals rs) domain t = some run ∧ run.datas = [] ∧
      run.err = some e ∧
      e = .dohError (.errorString (List.intercalate [0x2C, 0x20] (failures rs))) domain t ∧
      (∀ name, TypeToString t = some name →
        error.Error TypeToString e
          = str "DoH: query domain " ++ domain ++ str " on type " ++ name ++ str ": " ++
              List.intercalate [0x2C, 0x20] (failures rs)) ∧
      error.Error TypeToString e
        = str "DoH: query domain " ++ domain ++ str " on type " ++
            dnsType.String TypeToString t ++ str ": " ++
            List.intercalate [0x2C, 0x20] (failures rs) ∧
      ((∀ x ∈ rs, ∃ resp, x = .ok resp) →
        List.intercalate [0x2C, 0x20] (failures rs) = [])) ∧
    ((Resolver.mk [[0x61], [0x62], [0x63]]).Query
        (arrivals [.failed [0x78], .ok respServfail, .failed [0x79]]) [0x64] 1
      = some ⟨[[0x61], [0x62], [0x63]], 3, [],
          some (.dohError (.errorString [0x78, 0x2C, 0x20, 0x79]) [0x64] 1)⟩ ∧
     error.Error (fun n => if n = 1 then some [0x41] else none)
        (.dohError (.errorString [0x78, 0x2C, 0x20, 0x79]) [0x64] 1)
      = [68, 111, 72, 58, 32, 113, 117, 101, 114, 121, 32, 100, 111, 109, 97, 105, 110, 32,
         100, 32, 111, 110, 32, 116, 121, 112, 101, 32, 65, 58, 32, 120, 44, 32, 121]) := by
  refine ⟨?_, by decide, by decide⟩
  have hp : ¬ r.Providers.length = 0 := by
    intro h; exact hne (List.length_eq_zero.mp h)
  have hsk : ∀ x ∈ rs, x.skipped = true := by
    intro x hx
    rcases hall x hx with ⟨msg, rfl⟩ | ⟨resp, rfl, hs⟩
    · rfl
    · simp [result.skipped, hs]
  have hj : Join (failures rs) (str ", ") = List.intercalate [0x2C, 0x20] (failures rs) := by
    rw [Join_eq_intercalate]
    rfl
  refine ⟨⟨r.Providers, rs.length, [],
    some (.dohError (.errorString (List.intercalate [0x2C, 0x20] (failures rs))) domain t)⟩,
    .dohError (.errorString (List.intercalate [0x2C, 0x20] (failures rs))) domain t,
    ?_, rfl, rfl, rfl, ?_, ?_, ?_⟩
  · unfold Resolver.Query
    simp only [hp, if_false]
    have h := queryLoop_skipped r.Providers domain t rs hsk 0 [] [] 0
    simp only [Nat.add_zero, List.append_nil, List.nil_append, Nat.zero_add] at h
    rw [← hlen, h, ← hj]
    rfl
  · intro name hname
    simp [error.Error, dnsType.String, hname]
  · simp [error.Error]
  · intro hok
    have hf : failures rs = [] := by
      clear hall hsk hlen hj
      induction rs with
      | nil => rfl
      | cons x tl ih =>
        obtain ⟨resp, rfl⟩ := hok _ (List.mem_cons_self _ _)
        simp only [failures]
        exact ih (fun y hy => hok y (List.mem_cons_of_mem _ hy))
    rw [hf]
    rfl

/-- Witness for `Query_all_skipped`: the failures `timeout` and `refused`
around a SERVFAIL response; the inner text is `timeout, refused`. -/
theorem Query_all_skipped_witness :
    ∃ run, (Resolver.mk [str "p1", str "p2", str "p3"]).Query
        (arrivals [.failed (str "timeout"), .ok respServfail, .failed (str "refused")])
        (str "dohtest.poohvpn.com") TypeA = some run ∧ run.datas = [] ∧
      run.err = some (.dohError
        (.errorString [116, 105, 109, 101, 111, 117, 116, 44, 32, 114, 101, 102, 117, 115,
          101, 100])
        (str "dohtest.poohvpn.com") TypeA) := by
  obtain ⟨run, e, hq, hd, he, hi, _⟩ :=
    (Query_all_skipped typeNames ⟨[str "p1", str "p2", str "p3"]⟩
      [.failed (str "timeout"), .ok respServfail, .failed (str "refused")]
      (str "dohtest.poohvpn.com") TypeA (by decide) (by decide)
      (by
        intro x hx
        simp only [List.mem_cons, List.mem_singleton, List.not_mem_nil, or_false] at hx
        rcases hx with rfl | rfl | rfl
        · exact Or.inl ⟨_, rfl⟩
        · exact Or.inr ⟨respServfail, rfl, by decide⟩
        · exact Or.inl ⟨_, rfl⟩)).1
  refine ⟨run, hq, hd, ?_⟩
  rw [he, hi]
  decide

/-- C18: the first result in arrival order that is error-free with status 0
decides the outcome of `Query`, whatever the failures and non-zero statuses
before it and whatever the schedule holds after it: with a usable entry `Query`
returns the filtered, quote-stripped data of that response; with none it fails
with `ErrNoAnswer` as inner error, without the failure messages recorded
before. -/
theorem Query_first_clean_decides (r : Resolver) (domain : GoString) (t : dnsType)
    (pre : List result) (resp : response) (rest : List event)
    (hlt : pre.length < r.Providers.length)
    (hpre : ∀ x ∈ pre,
      (∃ msg, x = .failed msg) ∨ (∃ resp, x = .ok resp ∧ resp.Status ≠ 0))
    (hst : resp.Status = 0) :
    ((resp.Answer.filter (fun a => decide (a.Type_ = t ∧ a.TTL ≠ 0))).map
        (fun a => unquote a.Data) ≠ [] →
      r.Query (arrivals pre ++ .recv (.ok resp) :: rest) domain t
        = some ⟨r.Providers, pre.length + 1,
            (resp.Answer.filter (fun a => decide (a.Type_ = t ∧ a.TTL ≠ 0))).map
              (fun a => unquote a.Data), none⟩) ∧
    ((∀ a ∈ resp.Answer, a.Type_ ≠ t ∨ a.TTL = 0) →
      r.Query (arrivals pre ++ .recv (.ok resp) :: rest) domain t
        = some ⟨r.Providers, pre.length + 1, [],
            some (.dohError .ErrNoAnswer domain t)⟩) := by
  have hf : (fun a : answer => decide (a.Type_ = t ∧ a.TTL ≠ 0)) = usable t := by
    funext a
    simp [usable]
  have hsk : ∀ x ∈ pre, x.skipped = true := by
    intro x hx
    rcases hpre x hx with ⟨msg, rfl⟩ | ⟨resp2, rfl, hs⟩
    · rfl
    · simp [result.skipped, hs]
  have hp : ¬ r.Providers.length = 0 := by omega
  obtain ⟨m, hm⟩ : ∃ m, r.Providers.length = pre.length + (m + 1) :=
    ⟨r.Providers.length - pre.length - 1, by omega⟩
  have hq : r.Query (arrivals pre ++ .recv (.ok resp) :: rest) domain t
      = if (collectDatas t resp.Answer).length = 0 then
          some ⟨r.Providers, pre.length + 1, [], some (.dohError .ErrNoAnswer domain t)⟩
        else some ⟨r.Providers, pre.length + 1, collectDatas t resp.Answer, none⟩ := by
    unfold Resolver.Query
    simp only [hp, if_false]
    rw [hm, queryLoop_skipped r.Providers domain t pre hsk (m + 1) _ [] 0]
    simp [queryLoop, hst]
  rw [hq, hf, ← collectDatas_eq_filter_map]
  refine ⟨?_, ?_⟩
  · intro hne
    have : ¬ (collectDatas t resp.Answer).length = 0 := by
      intro h0; exact hne (List.length_eq_zero.mp h0)
    simp [this]
  · intro hno
    have hany : resp.Answer.any (usable t) = false := by
      rw [List.any_eq_false]
      intro a ha
      rcases hno a ha with h1 | h1
      · simp [usable, h1]
      · simp [usable, h1]
    simp [collectDatas_eq_nil t resp.Answer hany]

/-- Witness for `Query_first_clean_decides`: after one failure a status-0
response without answers arrives; the usable response that follows is not
considered and the failure message is dropped. -/
theorem Query_first_clean_decides_witness :
    (Resolver.mk [str "p1", str "p2", str "p3"]).Query
        (arrivals [.failed (str "timeout")] ++ .recv (.ok respEmpty) :: [.recv (.ok respA)])
        (str "dohtest.poohvpn.com") TypeA
      = some ⟨[str "p1", str "p2", str "p3"], 2, [],
          some (.dohError .ErrNoAnswer (str "dohtest.poohvpn.com") TypeA)⟩ :=
  (Query_first_clean_decides ⟨[str "p1", str "p2", str "p3"]⟩ (str "dohtest.poohvpn.com") TypeA
    [.failed (str "timeout")] respEmpty [.recv (.ok respA)] (by decide)
    (by
      intro x hx
      simp only [List.mem_singleton] at hx
      exact Or.inl ⟨_, hx⟩)
    (by decide)).2
    (by
      intro a ha
      exact absurd ha (List.not_mem_nil a))

/-! ## Unwrapping -/

theorem queryLoop_error_shape (launched : List GoString) (domain : GoString) (t : dnsType) :
    ∀ (n : Nat) (sched : List event) (errsString : List GoString) (selects : Nat)
      (run : QueryRun) (e : error),
      queryLoop launched domain t n sched errsString selects = some run → run.err = some e →
      ∃ inner, e = .dohError inner domain t := by
  intro n
  induction n with
  | zero =>
    intro sched errsString selects run e h he
    simp only [queryLoop, Option.some.injEq] at h
    subst h
    simp only [Option.some.injEq] at he
    exact ⟨_, he.symm⟩
  | succ n ih =>
    intro sched errsString selects run e h he
    match sched, h with
    | [], h => simp [queryLoop] at h
    | .done ce :: _, h =>
      simp only [queryLoop, Option.some.injEq] at h
      subst h
      simp only [Option.some.injEq] at he
      exact ⟨_, he.symm⟩
    | .recv (.failed msg) :: rest, h =>
      simp only [queryLoop] at h
      exact ih rest _ _ run e h he
    | .recv (.ok res) :: rest, h =>
      simp only [queryLoop] at h
      by_cases hs : res.Status ≠ 0
      · rw [if_pos hs] at h
        exact ih rest _ _ run e h he
      · rw [if_neg hs] at h
        by_cases hd : (collectDatas t res.Answer).length = 0
        · simp only [hd, if_true, Option.some.injEq] at h
          subst h
          simp only [Option.some.injEq] at he
          exact ⟨_, he.symm⟩
        · simp only [hd, if_false, Option.some.injEq] at h
          subst h
          simp at he

/-- C19: `Unwrap` of a `dohError` is `ErrNoAnswer` whatever its inner error.
Every error `Query` returns with at least one provider is a `dohError` for the
queried domain and type, so the errors for cancellation, for an empty answer
and for total provider failure all unwrap to `ErrNoAnswer`; the error for an
empty provider list is not a `dohError` and does not unwrap. -/
theorem dohError_unwrap :
    (∀ (inner : error) (domain : GoString) (t : dnsType),
      (error.dohError inner domain t).Unwrap = some .ErrNoAnswer) ∧
    (∀ (r : Resolver) (sched : List event) (domain : GoString) (t : dnsType) (run : QueryRun)
      (e : error), r.Providers ≠ [] → r.Query sched domain t = some run → run.err = some e →
      (∃ inner, e = .dohError inner domain t) ∧ e.Unwrap = some .ErrNoAnswer) ∧
    (∀ (r : Resolver) (sched : List event) (domain : GoString) (t : dnsType),
      r.Providers = [] →
      ∃ run e, r.Query sched domain t = some run ∧ run.err = some e ∧ e.Unwrap = none ∧
        e ≠ .ErrNoAnswer ∧ ∀ inner d ty, e ≠ .dohError inner d ty) ∧
    ((twoProviders.Query [.done (.errorString (str "context canceled"))]
        (str "dohtest.poohvpn.com") TypeA).map (fun run => run.err.map error.Unwrap)
      = some (some (some .ErrNoAnswer)) ∧
     (twoProviders.Query [.recv (.ok respEmpty)]
        (str "dohtest.poohvpn.com") TypeA).map (fun run => run.err.map error.Unwrap)
      = some (some (some .ErrNoAnswer)) ∧
     (twoProviders.Query [.recv (.failed (str "timeout")), .recv (.ok respServfail)]
        (str "dohtest.poohvpn.com") TypeA).map (fun run => run.err.map error.Unwrap)
      = some (some (some .ErrNoAnswer))) := by
  refine ⟨fun _ _ _ => rfl, ?_, ?_, by decide, by decide, by decide⟩
  · intro r sched domain t run e hne hq he
    have hp : ¬ r.Providers.length = 0 := by
      intro h0; exact hne (List.length_eq_zero.mp h0)
    unfold Resolver.Query at hq
    simp only [hp, if_false] at hq
    obtain ⟨inner, hi⟩ := queryLoop_error_shape r.Providers domain t _ sched [] 0 run e hq he
    exact ⟨⟨inner, hi⟩, by rw [hi]; rfl⟩
  · intro r sched domain t hnil
    refine ⟨⟨[], 0, [], some (.errorString (str "no provider"))⟩,
      .errorString (str "no provider"), by simp [Resolver.Query, hnil], rfl, rfl, ?_, ?_⟩
    · intro h; cases h
    · intro inner d ty h; cases h

/-- Witness for `dohError_unwrap`: the error of a total provider failure. -/
theorem dohError_unwrap_witness :
    (∃ inner, error.dohError (.errorString (str "timeout")) (str "dohtest.poohvpn.com") TypeA
        = .dohError inner (str "dohtest.poohvpn.com") TypeA) ∧
      (error.dohError (.errorString (str "timeout")) (str "dohtest.poohvpn.com") TypeA).Unwrap
        = some .ErrNoAnswer :=
  dohError_unwrap.2.1 twoProviders [.recv (.failed (str "timeout")), .recv (.ok respServfail)]
    (str "dohtest.poohvpn.com") TypeA
    ⟨twoProviders.Providers, 2, [],
      some (.dohError (.errorString (str "timeout")) (str "dohtest.poohvpn.com") TypeA)⟩
    (.dohError (.errorString (str "timeout")) (str "dohtest.poohvpn.com") TypeA)
    (by decide) (by decide) rfl

/-! ## Integer fields outside the 16-bit range -/

theorem uint16_cast (n : Int) : ((uint16 n : Nat) : Int) = n % 2 ^ 16 := by
  unfold uint16
  have h : (0 : Int) ≤ n % 65536 := Int.emod_nonneg n (by norm_num)
  rw [Int.toNat_of_nonneg h]
  norm_num

theorem mem_decodeSRV (sortSlice : SliceSorter) (hsort : SliceContract sortSlice)
    (datas : List GoString) (data : GoString) (rec : SRV)
    (hd : data ∈ datas) (hp : parseSRV data = some rec) : rec ∈ decodeSRV sortSlice datas := by
  unfold decodeSRV
  rw [(hsort SRV srvLess _).1.mem_iff, List.mem_filterMap]
  exact ⟨data, hd, hp⟩

theorem mem_decodeMX (sortSlice : SliceSorter) (hsort : SliceContract sortSlice)
    (datas : List GoString) (data : GoString) (rec : MX)
    (hd : data ∈ datas) (hp : parseMX data = some rec) : rec ∈ decodeMX sortSlice datas := by
  unfold decodeMX
  rw [(hsort MX mxLess _).1.mem_iff, List.mem_filterMap]
  exact ⟨data, hd, hp⟩

/-- C20, as stated, fails: the three fields of `70000 -1 65536` parse as
integers, and so does the single field of `5`, yet `LookupSRV` and `LookupMX`
drop these entries (fewer than 4, respectively 2, fields) and return an empty
list. -/
theorem decoders_wrap_uint16_counterexample :
    Fields (str "70000 -1 65536") = [str "70000", str "-1", str "65536"] ∧
    Atoi (str "70000") = some 70000 ∧ Atoi (str "-1") = some (-1) ∧
    Atoi (str "65536") = some 65536 ∧
    parseSRV (str "70000 -1 65536") = none ∧
    Fields (str "5") = [str "5"] ∧ Atoi (str "5") = some 5 ∧ parseMX (str "5") = none ∧
    oneProvider.LookupSRV (fun _ less x => insertionSort less x) [.recv (.ok respSRVshort)]
        [] [] (str "name.example") = some (str "name.example.", [], none) ∧
    oneProvider.LookupMX (fun _ less x => insertionSort less x) [.recv (.ok respMXshort)]
        (str "name.example") = some ([], none) ∧
    (∀ sortSlice : SliceSorter, SliceContract sortSlice →
      oneProvider.LookupSRV sortSlice [.recv (.ok respSRVshort)] [] [] (str "name.example")
        = some (str "name.example.", [], none) ∧
      oneProvider.LookupMX sortSlice [.recv (.ok respMXshort)] (str "name.example")
        = some ([], none)) := by
  refine ⟨by decide, by decide, by decide, by decide, by decide, by decide, by decide,
    by decide, by decide, by decide, ?_⟩
  intro sortSlice hsort
  have hq1 : oneProvider.Query [.recv (.ok respSRVshort)]
      (srvTarget [] [] (str "name.example")) TypeSRV
      = some ⟨oneProvider.Providers, 1, [str "70000 -1 65536"], none⟩ := by decide
  have hq2 : oneProvider.Query [.recv (.ok respMXshort)] (str "name.example") TypeTXT
      = some ⟨oneProvider.Providers, 1, [str "5"], none⟩ := by decide
  have ht : srvTarget [] [] (str "name.example") ++ str "." = str "name.example." := by
    decide
  have h1 : decodeSRV sortSlice [str "70000 -1 65536"] = [] := by
    unfold decodeSRV
    rw [sorted_eq_nil_iff sortSlice hsort]
    decide
  have h2 : decodeMX sortSlice [str "5"] = [] := by
    unfold decodeMX
    rw [sorted_eq_nil_iff sortSlice hsort]
    decide
  rw [LookupSRV_eq sortSlice _ _ _ _ _ _ hq1 rfl, LookupMX_eq sortSlice _ _ _ _ hq2 rfl, ht,
    h1, h2]
  exact ⟨rfl, rfl⟩

/-- C20, amended: an SRV data string with at least 4 fields whose first three
parse as integers `p`, `w` and `q` is kept by `LookupSRV` with priority
`p mod 2^16`, weight `w mod 2^16` and port `q mod 2^16`, and an MX data string
with at least 2 fields whose first parses as `n` is kept by `LookupMX` with
preference `n mod 2^16`; sorting uses the wrapped values, so `65536 0 80 host`
comes first, with priority 0.  `sort.Slice` is any function meeting its
contract. -/
theorem decoders_wrap_uint16 (sortSlice : SliceSorter) (hsort : SliceContract sortSlice) :
    (∀ (r : Resolver) (sched : List event) (service proto name : GoString) (run : QueryRun)
      (data v0 v1 v2 v3 : GoString) (tl : List GoString) (p w q : Int),
      r.Query sched (srvTarget service proto name) TypeSRV = some run → run.err = none →
      data ∈ run.datas → Fields data = v0 :: v1 :: v2 :: v3 :: tl →
      Atoi v0 = some p → Atoi v1 = some w → Atoi v2 = some q →
      ∃ cname res rec,
        r.LookupSRV sortSlice sched service proto name = some (cname, res, none) ∧
        rec ∈ res ∧ rec.Target = v3 ∧ (rec.Priority : Int) = p % 2 ^ 16 ∧
        (rec.Weight : Int) = w % 2 ^ 16 ∧ (rec.Port : Int) = q % 2 ^ 16) ∧
    (∀ (r : Resolver) (sched : List event) (name : GoString) (run : QueryRun)
      (data v0 v1 : GoString) (tl : List GoString) (n : Int),
      r.Query sched name TypeTXT = some run → run.err = none →
      data ∈ run.datas → Fields data = v0 :: v1 :: tl → Atoi v0 = some n →
      ∃ res rec, r.LookupMX sortSlice sched name = some (res, none) ∧
        rec ∈ res ∧ rec.Host = v1 ∧ (rec.Pref : Int) = n % 2 ^ 16) ∧
    (Atoi (str "65536") = some 65536 ∧ Atoi (str "-1") = some (-1) ∧
      Atoi (str "-65535") = some (-65535) ∧ uint16 65536 = 0 ∧ uint16 (-1) = 65535 ∧
      uint16 65537 = 1 ∧ uint16 (-65535) = 1) ∧
    oneProvider.LookupSRV sortSlice [.recv (.ok respSRVwrap)] [] [] (str "name.example")
      = some (str "name.example.",
          [⟨str "host", 80, 0, 0⟩, ⟨str "first.example.", 80, 1, 0⟩,
           ⟨str "neg.example.", 1, 65535, 1⟩], none) ∧
    oneProvider.LookupMX sortSlice [.recv (.ok respMXwrap)] (str "name.example")
      = some ([⟨str "zero.example.", 0⟩, ⟨str "wrapped.example.", 5⟩,
               ⟨str "seven.example.", 7⟩], none) := by
  refine ⟨?_, ?_, by decide, ?_, ?_⟩
  · intro r sched service proto name run data v0 v1 v2 v3 tl p w q hq he hd hf h0 h1 h2
    have hp : parseSRV data = some ⟨v3, uint16 q, uint16 p, uint16 w⟩ := by
      simp [parseSRV, hf, h0, h1, h2]
    exact ⟨srvTarget service proto name ++ str ".", decodeSRV sortSlice run.datas,
      ⟨v3, uint16 q, uint16 p, uint16 w⟩,
      LookupSRV_eq sortSlice r sched service proto name run hq he,
      mem_decodeSRV sortSlice hsort run.datas data _ hd hp, rfl,
      uint16_cast p, uint16_cast w, uint16_cast q⟩
  · intro r sched name run data v0 v1 tl n hq he hd hf h0
    have hp : parseMX data = some ⟨v1, uint16 n⟩ := by
      simp [parseMX, hf, h0]
    exact ⟨decodeMX sortSlice run.datas, ⟨v1, uint16 n⟩,
      LookupMX_eq sortSlice r sched name run hq he,
      mem_decodeMX sortSlice hsort run.datas data _ hd hp, rfl, uint16_cast n⟩
  · have hq : oneProvider.Query [.recv (.ok respSRVwrap)]
        (srvTarget [] [] (str "name.example")) TypeSRV
        = some ⟨oneProvider.Providers, 1,
          [str "1 0 80 first.example.", str "65536 0 80 host",
           str "-1 65537 -65535 neg.example."], none⟩ := by decide
    have ht : srvTarget [] [] (str "name.example") ++ str "." = str "name.example." := by
      decide
    rw [LookupSRV_eq sortSlice _ _ _ _ _ _ hq rfl, ht,
      decodeSRV_eval sortSlice hsort _
        [⟨str "first.example.", 80, 1, 0⟩, ⟨str "host", 80, 0, 0⟩,
         ⟨str "neg.example.", 1, 65535, 1⟩]
        [⟨str "host", 80, 0, 0⟩, ⟨str "first.example.", 80, 1, 0⟩,
         ⟨str "neg.example.", 1, 65535, 1⟩] (by decide) (by decide) (by decide)]
  · have hq : oneProvider.Query [.recv (.ok respMXwrap)] (str "name.example") TypeTXT
        = some ⟨oneProvider.Providers, 1,
          [str "7 seven.example.", str "65541 wrapped.example.",
           str "-65536 zero.example."], none⟩ := by decide
    rw [LookupMX_eq sortSlice _ _ _ _ hq rfl,
      decodeMX_eval sortSlice hsort _
        [⟨str "seven.example.", 7⟩, ⟨str "wrapped.example.", 5⟩,
         ⟨str "zero.example.", 0⟩]
        [⟨str "zero.example.", 0⟩, ⟨str "wrapped.example.", 5⟩,
         ⟨str "seven.example.", 7⟩]
        (by decide) (by decide) (by decide)]

/-- Witness for `decoders_wrap_uint16`: the entry `65536 0 80 host` is kept with
priority 0, sorting by insertion. -/
theorem decoders_wrap_uint16_witness :
    ∃ cname res rec, oneProvider.LookupSRV (fun _ less x => insertionSort less x)
        [.recv (.ok respSRVwrap)] [] [] (str "name.example") = some (cname, res, none) ∧
      rec ∈ res ∧ rec.Target = str "host" ∧ (rec.Priority : Int) = 65536 % 2 ^ 16 ∧
      (rec.Weight : Int) = 0 % 2 ^ 16 ∧ (rec.Port : Int) = 80 % 2 ^ 16 :=
  (decoders_wrap_uint16 (fun _ less x => insertionSort less x) insertionSort_contract).1
    oneProvider [.recv (.ok respSRVwrap)] [] [] (str "name.example")
    ⟨oneProvider.Providers, 1,
      [str "1 0 80 first.example.", str "65536 0 80 host", str "-1 65537 -65535 neg.example."],
      none⟩
    (str "65536 0 80 host") (str "65536") (str "0") (str "80") (str "host") [] 65536 0 80
    (by decide) rfl (by decide) (by decide) (by decide) (by decide) (by decide)

end doh
